import Mathlib

/-!
Shallow embedding of the BMP codec in `src/two` (files `src/two/src/lib.rs` and
`src/two/src/decoder.rs`), together with proofs about the claims of the
natural-language specification.

Modelling conventions:
* A Rust byte (`u8`) is a `Nat` that is `< 256` on every value actually produced
  by the code; wider unsigned integers are `Nat`, signed 32-bit integers are
  `Int` obtained by two's-complement reinterpretation of the 32-bit pattern.
* `Cursor` models `std::io::Cursor<Vec<u8>>`: the full byte buffer plus a read
  position.  `read_exact` fails (a wrapped I/O error) exactly when fewer bytes
  remain than requested; seeking is a pure position update and cannot fail for
  the non-negative offsets used by this code.
* Fallible Rust functions returning `BmpResult<T>` become
  `Except BmpError (T × Cursor)`, threading the cursor explicitly.
* A Rust panic (slice indexing out of range, `usize` subtraction overflow,
  out-of-range `Vec` indexing) is modelled by `Option`, with `none` meaning
  the program aborts; `decodeImage` distinguishes `ok` / `err` / `aborted`.
* `u32` arithmetic that can overflow (the `width * height` buffer size and
  pixel-index arithmetic of `Image`, the `file_size!` macro) carries an
  explicit `% 2 ^ 32`, the release-build wrapping semantics; debug builds
  panic at the same spots, and every theorem below restricts its domain to
  inputs where no wrap (hence no panic) occurs, so both build modes agree
  with the model there.  The `f32` arithmetic of the `file_size!` macro is
  modelled bit-exactly by integer rounding (`rnd24`).
-/

namespace Bmp

/-- Model of `Pixel` from `src/two/src/lib.rs` (three `u8` channels).  The `px!` macro
casts with `as u8`; at every call site of this codec the arguments are already
bytes, so the constructor is applied directly. -/
structure Pixel where
  r : Nat
  g : Nat
  b : Nat
deriving DecidableEq

/-- Model of `BmpHeader` (14-byte file header) from `src/two/src/lib.rs`. -/
structure BmpHeader where
  file_size : Nat
  creator1 : Nat
  creator2 : Nat
  pixel_offset : Nat
deriving DecidableEq

/-- Model of `BmpDibHeader` from `src/two/src/lib.rs`; `width`, `height`, `hres`, `vres`
are `i32` in the source and are modelled as `Int`. -/
structure BmpDibHeader where
  header_size : Nat
  width : Int
  height : Int
  num_planes : Nat
  bits_per_pixel : Nat
  compress_type : Nat
  data_size : Nat
  hres : Int
  vres : Int
  num_colors : Nat
  num_imp_colors : Nat
deriving DecidableEq

/-- Model of `BmpVersion` from `src/two/src/lib.rs`. -/
inductive BmpVersion where
  | Two
  | Three
  | ThreeNT
  | Four
  | Five
deriving DecidableEq

/-- Model of `BmpVersion::from_dib_header` from `src/two/src/lib.rs` (lines 112-123). -/
def BmpVersion.fromDibHeader (dib_header : BmpDibHeader) : Option BmpVersion :=
  if dib_header.header_size = 12 then some BmpVersion.Two
  else if dib_header.header_size = 40 ∧ dib_header.compress_type = 3 then some BmpVersion.ThreeNT
  else if dib_header.header_size = 40 then some BmpVersion.Three
  else if dib_header.header_size = 108 then some BmpVersion.Four
  else if dib_header.header_size = 124 then some BmpVersion.Five
  else none

/-- Model of `impl AsRef<str> for BmpVersion` from `src/two/src/lib.rs`. -/
def BmpVersion.asRefStr : BmpVersion → String
  | BmpVersion.Two => "BMP Version 2"
  | BmpVersion.Three => "BMP Version 3"
  | BmpVersion.ThreeNT => "BMP Version 3 NT"
  | BmpVersion.Four => "BMP Version 4"
  | BmpVersion.Five => "BMP Version 5"

/-- Model of `CompressionType` from `src/two/src/lib.rs`. -/
inductive CompressionType where
  | Uncompressed
  | Rle8bit
  | Rle4bit
  | BitfieldsEncoding
deriving DecidableEq

/-- Model of `CompressionType::from_u32` from `src/two/src/lib.rs` (lines 146-155). -/
def CompressionType.fromU32 (val : Nat) : CompressionType :=
  if val = 1 then CompressionType.Rle8bit
  else if val = 2 then CompressionType.Rle4bit
  else if val = 3 then CompressionType.BitfieldsEncoding
  else CompressionType.Uncompressed

/-- Model of `impl AsRef<str> for CompressionType` from `src/two/src/lib.rs`. -/
def CompressionType.asRefStr : CompressionType → String
  | CompressionType.Rle8bit => "RLE 8-bit"
  | CompressionType.Rle4bit => "RLE 4-bit"
  | CompressionType.BitfieldsEncoding => "Bitfields Encoding"
  | CompressionType.Uncompressed => "Uncompressed"

/-- Model of `BmpErrorKind` from `src/two/src/decoder.rs`.  The `io::Error` payload of
`BmpIoError` carries no information used by any claim and is dropped. -/
inductive BmpErrorKind where
  | WrongMagicNumbers
  | UnsupportedBitsPerPixel
  | UnsupportedCompressionType
  | UnsupportedBmpVersion
  | UnsupportedHeader
  | BmpIoError
deriving DecidableEq

/-- Model of `BmpError` from `src/two/src/decoder.rs`. -/
structure BmpError where
  kind : BmpErrorKind
  details : String
deriving DecidableEq

/-- Model of `impl From<io::Error> for BmpError`: every wrapped I/O failure carries the
details string `"Io Error"`. -/
def ioError : BmpError := ⟨BmpErrorKind.BmpIoError, "Io Error"⟩

/-- Two's-complement reinterpretation of a `u32` bit pattern as an `i32`
(`as i32` casts and the byte-level decoding of `read_i32`). -/
def i32val (n : Nat) : Int :=
  if n % 2 ^ 32 < 2 ^ 31 then ((n % 2 ^ 32 : Nat) : Int)
  else ((n % 2 ^ 32 : Nat) : Int) - 2 ^ 32

/-- Rounding of a natural number to 24 significant binary digits,
round-to-nearest with ties to even: the exact integer value of the `f32`
nearest to `n`.  Identity below `2 ^ 24`; every `f32` value arising in the
`file_size!` macro is an integer in the normal range, so this captures each
of its rounding steps exactly. -/
def rnd24 (n : Nat) : Nat :=
  if n < 2 ^ 24 then n
  else
    let k := Nat.log2 n - 23
    let q := n / 2 ^ k
    let r := n % 2 ^ k
    let q' := if r < 2 ^ (k - 1) then q
      else if 2 ^ (k - 1) < r then q + 1
      else if q % 2 = 0 then q else q + 1
    q' * 2 ^ k

/-- Bit-exact model of the `row_size` computation of the `file_size!` macro
(`src/two/src/lib.rs` lines 59-65) at its only depth, 24:
`((24f32 * (width as f32) + 31f32) / 32f32).floor() as u32 * 4`.
The three round-to-nearest-even steps (the integer-to-`f32` cast of the
argument, the product, the sum) are `rnd24` on integers; the division by 32
only rescales the exponent and `floor` of an `f32` is exact, so together they
are integer division by 32; the `as u32` float-to-int cast saturates (clamping
every negative argument to 0); the final `* 4` is a wrapping `u32`
multiplication. -/
def rowSizeF32 (width : Int) : Nat :=
  if width < 0 then 0
  else (min (rnd24 (rnd24 (24 * rnd24 width.toNat) + 31) / 32) (2 ^ 32 - 1) * 4) % 2 ^ 32

/-- Pixel-array byte size of the `file_size!` macro: `height as u32 * row_size`
— a reinterpreting cast (two's complement on the `i32` caller
`BmpDibHeader::new`, identity on the `u32` caller `Image::new`) followed by a
wrapping `u32` multiplication. -/
def pixelArraySize (width height : Int) : Nat :=
  ((height % 2 ^ 32).toNat * rowSizeF32 width) % 2 ^ 32

/-- Wrapping `u32` subtraction (two's complement), the release-build semantics
of `a - b`; debug builds panic on borrow.  The claims below only exercise the
borrow-free case, where this equals `a - b`. -/
def u32sub (a b : Nat) : Nat :=
  (a % 2 ^ 32 + 2 ^ 32 - b % 2 ^ 32) % 2 ^ 32

/-- Model of `BmpDibHeader::new` from `src/two/src/lib.rs` (lines 202-219). -/
def BmpDibHeader.new (width height : Int) : BmpDibHeader where
  header_size := 40
  width := width
  height := height
  num_planes := 1
  bits_per_pixel := 24
  compress_type := 0
  data_size := pixelArraySize width height
  hres := 1000
  vres := 1000
  num_colors := 0
  num_imp_colors := 0

/-- Model of `BmpHeader::new` from `src/two/src/lib.rs` (lines 176-185); the
`header_size + data_size` addition is `u32` and wraps. -/
def BmpHeader.new (header_size data_size : Nat) : BmpHeader where
  file_size := (header_size + data_size) % 2 ^ 32
  creator1 := 0
  creator2 := 0
  pixel_offset := header_size

/-- Model of `Image` from `src/two/src/lib.rs`. -/
structure Image where
  header : BmpHeader
  dib_header : BmpDibHeader
  color_palette : Option (List Pixel)
  width : Nat
  height : Nat
  padding : Nat
  data : List Pixel
deriving DecidableEq

/-- Model of `Image::new` from `src/two/src/lib.rs` (lines 232-250): the
`file_size!` macro (on the `u32` width and height) yields
`head_size = 2 + 12 + 40 = 54` and the 24-bpp pixel-array size, and the
`width * height` buffer size is a `u32` product — wrapping in release (debug
builds panic), so the buffer holds `(width * height) mod 2^32` black pixels.
The claims restrict to `width * height < 2^32`, where no wrap occurs. -/
def Image.new (width height : Nat) : Image where
  header := BmpHeader.new 54 (pixelArraySize width height)
  dib_header := BmpDibHeader.new (i32val width) (i32val height)
  color_palette := none
  width := width
  height := height
  padding := width % 4
  data := List.replicate (width * height % 2 ^ 32) ⟨0, 0, 0⟩

/-- Model of `Image::set_pixel`: `data[((height - y - 1) * width + x)] = val`
(`src/two/src/lib.rs` line 266).  The index is computed in `u32`
(wrapping subtractions, wrapping multiply-add); at in-range coordinates of an
image with `width * height < 2^32` — the only case the claims exercise — no
wrap occurs and the index is the exact `(height - y - 1) * width + x`.
An out-of-range resulting index panics in the source; `List.set` leaves the
buffer unchanged, a case no claim reaches. -/
def Image.setPixel (img : Image) (x y : Nat) (val : Pixel) : Image :=
  { img with
      data := img.data.set ((u32sub (u32sub img.height y) 1 * img.width + x) % 2 ^ 32) val }

/-- Model of `Image::get_pixel`: `data[((height - y - 1) * width + x)]`
(`src/two/src/lib.rs` line 271), with the same `u32` index arithmetic as
`set_pixel`; the default of `List.getD` is never reached at the in-range
coordinates the claims use (the source panics there). -/
def Image.getPixel (img : Image) (x y : Nat) : Pixel :=
  img.data.getD ((u32sub (u32sub img.height y) 1 * img.width + x) % 2 ^ 32) ⟨0, 0, 0⟩

/-- A sequence of `set_pixel` calls applied in order. -/
def applySetPixels : Image → List (Nat × Nat × Pixel) → Image
  | img, [] => img
  | img, (x, y, val) :: rest => applySetPixels (img.setPixel x y val) rest

/-! ## Byte-stream reading primitives (`std::io::Cursor<Vec<u8>>`) -/

/-- Model of `Cursor<Vec<u8>>`: underlying bytes plus read position. -/
structure Cursor where
  data : List Nat
  pos : Nat
deriving DecidableEq

/-- Model of `read_exact` into an `n`-byte buffer: succeeds returning exactly the next
`n` bytes iff they exist (i.e. iff `c.pos + n ≤ c.data.length`, phrased below
as the equivalent length check on the extracted slice), otherwise the wrapped
I/O error. -/
def Cursor.readExact (c : Cursor) (n : Nat) : Except BmpError (List Nat × Cursor) :=
  let bs := (c.data.drop c.pos).take n
  if bs.length = n then Except.ok (bs, ⟨c.data, c.pos + n⟩)
  else Except.error ioError

/-- Model of `seek(SeekFrom::Start(p))`. -/
def Cursor.seekTo (c : Cursor) (p : Nat) : Cursor := ⟨c.data, p⟩

/-- Model of `seek(SeekFrom::Current(k))` for the non-negative offsets used here. -/
def Cursor.seekCur (c : Cursor) (k : Nat) : Cursor := ⟨c.data, c.pos + k⟩

/-- Little-endian assembly of the first two of a list of bytes. -/
def assembleU16 (bs : List Nat) : Nat :=
  bs.getD 0 0 + 2 ^ 8 * bs.getD 1 0

/-- Little-endian assembly of the first four of a list of bytes. -/
def assembleU32 (bs : List Nat) : Nat :=
  bs.getD 0 0 + 2 ^ 8 * bs.getD 1 0 + 2 ^ 16 * bs.getD 2 0 + 2 ^ 24 * bs.getD 3 0

/-- Model of `read_u16::<LittleEndian>()`. -/
def Cursor.readU16le (c : Cursor) : Except BmpError (Nat × Cursor) :=
  match c.readExact 2 with
  | Except.error e => Except.error e
  | Except.ok (bs, c') => Except.ok (assembleU16 bs, c')

/-- Model of `read_u32::<LittleEndian>()`. -/
def Cursor.readU32le (c : Cursor) : Except BmpError (Nat × Cursor) :=
  match c.readExact 4 with
  | Except.error e => Except.error e
  | Except.ok (bs, c') => Except.ok (assembleU32 bs, c')

/-- Model of `read_i32::<LittleEndian>()`. -/
def Cursor.readI32le (c : Cursor) : Except BmpError (Int × Cursor) :=
  match c.readExact 4 with
  | Except.error e => Except.error e
  | Except.ok (bs, c') => Except.ok (i32val (assembleU32 bs), c')

/-! ## Decoder (`src/two/src/decoder.rs`) -/

/-- The details string of the `WrongMagicNumbers` error built by `read_bmp_id`
(`format!("Expacted [66, 77], but was {:?}", bm)`, typo included). -/
def wrongMagicDetails (b0 b1 : Nat) : String :=
  "Expacted [66, 77], but was [" ++ toString b0 ++ ", " ++ toString b1 ++ "]"

/-- Model of `read_bmp_id` from `src/two/src/decoder.rs` (lines 106-118). -/
def readBmpId (c : Cursor) : Except BmpError Cursor :=
  match c.readExact 2 with
  | Except.error e => Except.error e
  | Except.ok (bm, c') =>
    if bm = [66, 77] then Except.ok c'
    else Except.error ⟨BmpErrorKind.WrongMagicNumbers,
      wrongMagicDetails (bm.getD 0 0) (bm.getD 1 0)⟩

/-- Model of `read_bmp_header` from `src/two/src/decoder.rs` (lines 120-129). -/
def readBmpHeader (c : Cursor) : Except BmpError (BmpHeader × Cursor) := do
  let (file_size, c1) ← c.readU32le
  let (creator1, c2) ← c1.readU16le
  let (creator2, c3) ← c2.readU16le
  let (pixel_offset, c4) ← c3.readU32le
  Except.ok ({ file_size, creator1, creator2, pixel_offset }, c4)

/-- The eleven little-endian field reads of `read_bmp_dib_header`
(`src/two/src/decoder.rs` lines 131-144), before any validation. -/
def readDibFields (c : Cursor) : Except BmpError (BmpDibHeader × Cursor) := do
  let (header_size, c1) ← c.readU32le
  let (width, c2) ← c1.readI32le
  let (height, c3) ← c2.readI32le
  let (num_planes, c4) ← c3.readU16le
  let (bits_per_pixel, c5) ← c4.readU16le
  let (compress_type, c6) ← c5.readU32le
  let (data_size, c7) ← c6.readU32le
  let (hres, c8) ← c7.readI32le
  let (vres, c9) ← c8.readI32le
  let (num_colors, c10) ← c9.readU32le
  let (num_imp_colors, c11) ← c10.readU32le
  Except.ok ({ header_size, width, height, num_planes, bits_per_pixel,
               compress_type, data_size, hres, vres, num_colors, num_imp_colors }, c11)

/-- A rendering of the `{:?}` debug format of a DIB header, used only inside
the `UnsupportedHeader` details string. -/
def dibDebugString (dh : BmpDibHeader) : String :=
  toString dh.header_size ++ " " ++ toString dh.width ++ " " ++ toString dh.height ++ " " ++
  toString dh.num_planes ++ " " ++ toString dh.bits_per_pixel ++ " " ++
  toString dh.compress_type ++ " " ++ toString dh.data_size ++ " " ++ toString dh.hres ++ " " ++
  toString dh.vres ++ " " ++ toString dh.num_colors ++ " " ++ toString dh.num_imp_colors

/-- Details string of the `UnsupportedHeader` error of `read_bmp_dib_header`. -/
def unsupportedHeaderDetails (dh : BmpDibHeader) : String :=
  "Only simple BMP images of version 3, 4, and 5 are currently supported. " ++
  "Connot decode the image for the following header: " ++ dibDebugString dh

/-- Details string of the `UnsupportedBitsPerPixel` error. -/
def unsupportedBppDetails (other : Nat) : String :=
  "Only 1, 4, 8, and 24 bits per pixel are currently supported, was: " ++ toString other

/-- The three validation steps of `read_bmp_dib_header`
(`src/two/src/decoder.rs` lines 146-177): version check, bits-per-pixel check,
compression-type check, in that order. -/
def checkDibHeader (dh : BmpDibHeader) : Except BmpError Unit :=
  match BmpVersion.fromDibHeader dh with
  | some BmpVersion.Three | some BmpVersion.Four | some BmpVersion.Five =>
    if dh.bits_per_pixel = 1 ∨ dh.bits_per_pixel = 4 ∨ dh.bits_per_pixel = 8 ∨
        dh.bits_per_pixel = 24 then
      match CompressionType.fromU32 dh.compress_type with
      | CompressionType.Uncompressed => Except.ok ()
      | other => Except.error ⟨BmpErrorKind.UnsupportedCompressionType, other.asRefStr⟩
    else
      Except.error ⟨BmpErrorKind.UnsupportedBitsPerPixel, unsupportedBppDetails dh.bits_per_pixel⟩
  | some other => Except.error ⟨BmpErrorKind.UnsupportedBmpVersion, other.asRefStr⟩
  | none => Except.error ⟨BmpErrorKind.UnsupportedHeader, unsupportedHeaderDetails dh⟩

/-- Model of `read_bmp_dib_header` from `src/two/src/decoder.rs` (lines 131-180). -/
def readBmpDibHeader (c : Cursor) : Except BmpError (BmpDibHeader × Cursor) := do
  let (dh, c') ← readDibFields c
  match checkDibHeader dh with
  | Except.error e => Except.error e
  | Except.ok _ => Except.ok (dh, c')

/-- The `num_entries` match at the head of `read_color_palette`
(`src/two/src/decoder.rs` lines 186-191): `num_colors` when non-zero, else
`1 << bpp` for the indexed depths, else no palette. -/
def paletteNumEntries (dh : BmpDibHeader) : Option Nat :=
  if dh.num_colors ≠ 0 then some dh.num_colors
  else if dh.bits_per_pixel = 1 ∨ dh.bits_per_pixel = 4 ∨ dh.bits_per_pixel = 8 then
    some (2 ^ dh.bits_per_pixel)
  else none

/-- The entry-reading loop of `read_color_palette`: `num_entries` four-byte
records `(blue, green, red, reserved)`, each mapped to
`px!(px[2], px[1], px[0])`. -/
def readPaletteEntries (c : Cursor) : Nat → Except BmpError (List Pixel × Cursor)
  | 0 => Except.ok ([], c)
  | n + 1 =>
    match c.readExact 4 with
    | Except.error e => Except.error e
    | Except.ok (px, c') =>
      match readPaletteEntries c' n with
      | Except.error e => Except.error e
      | Except.ok (rest, c'') =>
        Except.ok (⟨px.getD 2 0, px.getD 1 0, px.getD 0 0⟩ :: rest, c'')

/-- Model of `read_color_palette` from `src/two/src/decoder.rs` (lines 182-208):
no palette for non-indexed depths with `num_colors == 0`; version 2 (3-byte
records) is rejected; otherwise seek to `14 + header_size` and read the
4-byte entries. -/
def readColorPalette (c : Cursor) (dh : BmpDibHeader) :
    Except BmpError (Option (List Pixel) × Cursor) :=
  match paletteNumEntries dh with
  | none => Except.ok (none, c)
  | some numEntries =>
    match BmpVersion.fromDibHeader dh with
    | some BmpVersion.Two =>
      Except.error ⟨BmpErrorKind.UnsupportedBmpVersion, BmpVersion.Two.asRefStr⟩
    | _ =>
      match readPaletteEntries (c.seekTo (14 + dh.header_size)) numEntries with
      | Except.error e => Except.error e
      | Except.ok (palette, c') => Except.ok (some palette, c')

/-! ## Bit-unpacking cursor (`BitIndex`, `src/two/src/decoder.rs` lines 261-300) -/

/-- Model of `BitIndex` state. -/
structure BitIndex where
  size : Nat
  nbits : Nat
  bits_left : Nat
  mask : Nat
  bytes : List Nat
  index : Nat
deriving DecidableEq

/-- Model of `bit_index` constructor (`src/two/src/decoder.rs` lines 271-281):
`bits_left = BITS - nbits` is a `usize` subtraction that aborts on underflow
(`none`); `mask = !0 >> bits_left` on `u8` is `255 >>> bits_left`. -/
def bitIndexMk (bytes : List Nat) (nbits size : Nat) : Option BitIndex :=
  if 8 < nbits then none
  else
    some { size := size, nbits := nbits, bits_left := 8 - nbits,
           mask := 255 >>> (8 - nbits), bytes := bytes, index := 0 }

/-- Model of `BitIndex::next` (`src/two/src/decoder.rs` lines 283-300).  The outer
`none` is the `usize` underflow abort of `self.bits_left - self.index % BITS`;
`some (none, b')` is the iterator returning `None`; `some (some v, b')` yields
value `v`.  As in the source, the index is advanced before the size check and
the size is decremented before the byte lookup. -/
def bitNext (b : BitIndex) : Option (Option Nat × BitIndex) :=
  let n := b.index / 8
  if b.bits_left < b.index % 8 then none
  else
    let offset := b.bits_left - b.index % 8
    let b1 := { b with index := b.index + b.nbits }
    if b1.size = 0 then some (none, b1)
    else
      let b2 := { b1 with size := b1.size - 1 }
      match b.bytes.get? n with
      | none => some (none, b2)
      | some block => some (some ((block &&& (b.mask <<< offset)) >>> offset), b2)

/-- The outcomes of `k` successive `next` calls (`none` = some call aborted). -/
def bitIndexResults : Nat → BitIndex → Option (List (Option Nat))
  | 0, _ => some []
  | k + 1, b =>
    match bitNext b with
    | none => none
    | some (o, b') =>
      match bitIndexResults k b' with
      | none => none
      | some rest => some (o :: rest)

/-- The `for i in bit_index(..) { data.push(palette[i]) }` loop of
`read_indexes`: repeatedly call `next`; on a yielded index look it up in the
palette (aborting when out of range, as `palette[i]` does); stop at `None`.
`fuel` bounds the number of `next` calls; `read_indexes` passes `size + 1`,
which is enough because every yield strictly decreases `size`. -/
def pushLoop (palette : List Pixel) : Nat → BitIndex → Option (List Pixel)
  | 0, _ => some []
  | fuel + 1, b =>
    match bitNext b with
    | none => none
    | some (none, _) => some []
    | some (some i, b') =>
      match palette.get? i with
      | none => none
      | some px =>
        match pushLoop palette fuel b' with
        | none => none
        | some rest => some (px :: rest)

/-- Row padding computed inside the row loop of `read_indexes`:
`match bytes_per_row % 4 { 0 => 0, other => 4 - other }`. -/
def rowPadding (bytesPerRow : Nat) : Nat :=
  if bytesPerRow % 4 = 0 then 0 else 4 - bytesPerRow % 4

/-- The row loop of `read_indexes` (`src/two/src/decoder.rs` lines 221-232),
row `y` of `rem` remaining rows: slice `bmp_data[start .. start+bytes_per_row]`
(aborting when out of range) and unpack `width` palette indices from it. -/
def readIndexRows (data : List Nat) (palette : List Pixel)
    (width bpp offset bytesPerRow : Nat) : Nat → Nat → Option (List Pixel)
  | _, 0 => some []
  | y, rem + 1 =>
    let padding := rowPadding bytesPerRow
    let start := offset + (bytesPerRow + padding) * y
    if data.length < start + bytesPerRow then none
    else
      let bytes := (data.drop start).take bytesPerRow
      match bitIndexMk bytes bpp width with
      | none => none
      | some b =>
        match pushLoop palette (width + 1) b with
        | none => none
        | some row =>
          match readIndexRows data palette width bpp offset bytesPerRow (y + 1) rem with
          | none => none
          | some rest => some (row ++ rest)

/-- Model of `read_indexes` from `src/two/src/decoder.rs` (lines 210-235).
`bytes_per_row = (width / (8 / bpp)).ceil()` is computed in `f64` in the
source; for the depths 1, 4 and 8 that reach this code with a well-defined
result it equals `⌈width * bpp / 8⌉ = (width * bpp + 7) / 8` exactly. -/
def readIndexes (data : List Nat) (palette : List Pixel)
    (width height : Nat) (bpp : Nat) (offset : Nat) : Option (List Pixel) :=
  readIndexRows data palette width bpp offset ((width * bpp + 7) / 8) 0 height

/-- The inner `for _ in 0..width` loop of `read_pixels`: `width` three-byte
`(b, g, r)` reads, each pushed as `px!(px[2], px[1], px[0])`. -/
def readPxRow (c : Cursor) : Nat → Except BmpError (List Pixel × Cursor)
  | 0 => Except.ok ([], c)
  | n + 1 =>
    match c.readExact 3 with
    | Except.error e => Except.error e
    | Except.ok (px, c') =>
      match readPxRow c' n with
      | Except.error e => Except.error e
      | Except.ok (rest, c'') =>
        Except.ok (⟨px.getD 2 0, px.getD 1 0, px.getD 0 0⟩ :: rest, c'')

/-- The outer `for _ in 0..height` loop of `read_pixels`: each row is `width`
pixels followed by `seek(SeekFrom::Current(padding))`. -/
def readPxRows (c : Cursor) (width padding : Nat) : Nat → Except BmpError (List Pixel × Cursor)
  | 0 => Except.ok ([], c)
  | h + 1 =>
    match readPxRow c width with
    | Except.error e => Except.error e
    | Except.ok (row, c1) =>
      match readPxRows (c1.seekCur padding) width padding h with
      | Except.error e => Except.error e
      | Except.ok (rest, c2) => Except.ok (row ++ rest, c2)

/-- Model of `read_pixels` from `src/two/src/decoder.rs` (lines 237-259). -/
def readPixels (c : Cursor) (width height offset padding : Nat) :
    Except BmpError (List Pixel × Cursor) :=
  readPxRows (c.seekTo offset) width padding height

/-- Outcome of `decode_image`: success, a returned `BmpError`, or an abort
(panic) of the process. -/
inductive DecodeResult where
  | ok : Image → DecodeResult
  | err : BmpError → DecodeResult
  | aborted : DecodeResult
deriving DecidableEq

/-- The width of a successfully decoded image, if any. -/
def DecodeResult.widthOf : DecodeResult → Option Nat
  | DecodeResult.ok img => some img.width
  | _ => none

/-- The part of `decode_image` (`src/two/src/decoder.rs` lines 75-103) that
runs after the id, file header and DIB header have been read: palette read,
pixel-plane read dispatched on the palette, and `Image` assembly. -/
def decodeAfterHeaders (header : BmpHeader) (dib_header : BmpDibHeader) (c : Cursor) :
    DecodeResult :=
  match readColorPalette c dib_header with
  | Except.error e => DecodeResult.err e
  | Except.ok (color_palette, c4) =>
    let width := dib_header.width.natAbs
    let height := dib_header.height.natAbs
    let padding := width % 4
    match color_palette with
    | some palette =>
      match readIndexes c4.data palette width height dib_header.bits_per_pixel
          header.pixel_offset with
      | none => DecodeResult.aborted
      | some data =>
        DecodeResult.ok ⟨header, BmpDibHeader.new (i32val width) (i32val height),
          color_palette, width, height, padding, data⟩
    | none =>
      match readPixels c4 width height header.pixel_offset padding with
      | Except.error e => DecodeResult.err e
      | Except.ok (data, _) =>
        DecodeResult.ok ⟨header, BmpDibHeader.new (i32val width) (i32val height),
          color_palette, width, height, padding, data⟩

/-- Model of `decode_image` from `src/two/src/decoder.rs` (lines 71-104). -/
def decodeImage (c : Cursor) : DecodeResult :=
  match readBmpId c with
  | Except.error e => DecodeResult.err e
  | Except.ok c1 =>
    match readBmpHeader c1 with
    | Except.error e => DecodeResult.err e
    | Except.ok (header, c2) =>
      match readBmpDibHeader c2 with
      | Except.error e => DecodeResult.err e
      | Except.ok (dib_header, c3) => decodeAfterHeaders header dib_header c3

/-! ## Encoder

The file `src/two/src/encoder.rs` is declared (`mod encoder;`) and called
(`Image::to_writer` → `encoder::encode_image`) but its source is not present
under `src/`; the definitions below are modelled from the specification. -/

/-- Little-endian byte serialization of a `u32` value. -/
def u32le (n : Nat) : List Nat :=
  [n % 2 ^ 8, n / 2 ^ 8 % 2 ^ 8, n / 2 ^ 16 % 2 ^ 8, n / 2 ^ 24 % 2 ^ 8]

/-- Little-endian byte serialization of a `u16` value. -/
def u16le (n : Nat) : List Nat :=
  [n % 2 ^ 8, n / 2 ^ 8 % 2 ^ 8]

/-- Modelled from the spec: one pixel row of the encoder's output — each pixel
as 3 bytes in `B, G, R` order. -/
def encodeRow (row : List Pixel) : List Nat :=
  row.flatMap fun p => [p.b, p.g, p.r]

/-- Modelled from the spec: the encoder's pixel-data section — rows written
bottom row first (row 0 of the `Image` buffer), each row `width` pixels
followed by `width mod 4` zero padding bytes. -/
def encodeRows (width : Nat) : List Pixel → Nat → List Nat
  | _, 0 => []
  | d, h + 1 =>
    encodeRow (d.take width) ++ List.replicate (width % 4) 0 ++
      encodeRows width (d.drop width) h

/-- Modelled from the spec: `encoder::encode_image` (`src/two/src/encoder.rs`,
absent from `src/`).  Always emits an uncompressed 24-bpp file: row byte count
`floor((24*width+31)/32)*4`, 14-byte file header with `pixel_offset = 14 + 40`,
`file_size` = headers + pixel data, zero creator fields, then a 40-byte DIB
header with the image's width and height, 1 plane, 24 bpp, compression 0, zero
palette counts and the fixed resolution constants (1000), then the pixel rows.
No palette is written. -/
def encodeImage (img : Image) : List Nat :=
  let w := img.width
  let h := img.height
  let rowSize := ((24 * w + 31) / 32) * 4
  let dataSize := h * rowSize
  [66, 77] ++ u32le (54 + dataSize) ++ u16le 0 ++ u16le 0 ++ u32le 54 ++
    u32le 40 ++ u32le w ++ u32le h ++ u16le 1 ++ u16le 24 ++ u32le 0 ++
    u32le dataSize ++ u32le 1000 ++ u32le 1000 ++ u32le 0 ++ u32le 0 ++
    encodeRows w img.data h

/-- The `nbits`-wide unsigned field at bit offset `i * nbits` of a byte slice,
read most-significant-bit-first:
`(bytes[(i*nbits)/8] & (mask << shift)) >> shift` with
`shift = (8 - nbits) - ((i*nbits) mod 8)` and `mask = 0xFF >> (8 - nbits)`. -/
def bitField (bytes : List Nat) (nbits i : Nat) : Nat :=
  (bytes.getD (i * nbits / 8) 0 &&&
    ((255 >>> (8 - nbits)) <<< ((8 - nbits) - i * nbits % 8))) >>>
    ((8 - nbits) - i * nbits % 8)

/-- The `BitIndex` state reached after `j` calls to `next` on
`bit_index(bytes, nbits, size)`: the running bit index is `j * nbits` and the
remaining count is `size - j` (saturating, as in the source where the
decrement is skipped once the count is zero). -/
def bitState (bytes : List Nat) (nbits size j : Nat) : BitIndex :=
  ⟨size - j, nbits, 8 - nbits, 255 >>> (8 - nbits), bytes, j * nbits⟩

/-! ## Concrete byte streams used by witnesses and counterexamples -/

/-- A complete BMP byte stream: 1×1, 1 bpp, `num_colors = 1` (palette of one
entry), pixel row byte `0b1000_0000` — the packed index of pixel (0,0) is 1,
one past the end of the palette. -/
def oneColorIndexedBytes : List Nat :=
  [66, 77] ++ u32le 62 ++ u16le 0 ++ u16le 0 ++ u32le 58 ++
    u32le 40 ++ u32le 1 ++ u32le 1 ++ u16le 1 ++ u16le 1 ++ u32le 0 ++
    u32le 4 ++ u32le 0 ++ u32le 0 ++ u32le 1 ++ u32le 0 ++
    [10, 20, 30, 0] ++ [128, 0, 0, 0]

/-- A 1×1, 1 bpp stream with `num_colors = 0` (palette of two entries) whose
pixel data region is empty: the stream ends at `pixel_offset = 62`. -/
def truncatedIndexedBytes : List Nat :=
  [66, 77] ++ u32le 66 ++ u16le 0 ++ u16le 0 ++ u32le 62 ++
    u32le 40 ++ u32le 1 ++ u32le 1 ++ u16le 1 ++ u16le 1 ++ u32le 0 ++
    u32le 4 ++ u32le 0 ++ u32le 0 ++ u32le 0 ++ u32le 0 ++
    [10, 20, 30, 0] ++ [40, 50, 60, 0]

/-- A 1×1, 24 bpp stream whose pixel data region is empty: the stream ends at
`pixel_offset = 54`. -/
def truncatedDirectBytes : List Nat :=
  [66, 77] ++ u32le 58 ++ u16le 0 ++ u16le 0 ++ u32le 54 ++
    u32le 40 ++ u32le 1 ++ u32le 1 ++ u16le 1 ++ u16le 24 ++ u32le 0 ++
    u32le 4 ++ u32le 0 ++ u32le 0 ++ u32le 0 ++ u32le 0

/-- A well-formed 1×1, 24 bpp stream with a single BGR triple `(9, 8, 7)`. -/
def smallDirectBytes : List Nat :=
  [66, 77] ++ u32le 58 ++ u16le 0 ++ u16le 0 ++ u32le 54 ++
    u32le 40 ++ u32le 1 ++ u32le 1 ++ u16le 1 ++ u16le 24 ++ u32le 0 ++
    u32le 4 ++ u32le 0 ++ u32le 0 ++ u32le 0 ++ u32le 0 ++ [9, 8, 7]

/-- A stream whose DIB header declares `header_size = 12` (BMP version 2). -/
def v2HeaderBytes : List Nat :=
  [66, 77] ++ u32le 54 ++ u16le 0 ++ u16le 0 ++ u32le 54 ++
    u32le 12 ++ u32le 1 ++ u32le 1 ++ u16le 1 ++ u16le 1 ++ u32le 0 ++
    u32le 0 ++ u32le 0 ++ u32le 0 ++ u32le 0 ++ u32le 0

/-- A stream whose DIB header declares `header_size = 108` (BMP version 4),
24 bpp, and `compress_type = 1` (RLE-8). -/
def v4Rle8Bytes : List Nat :=
  [66, 77] ++ u32le 54 ++ u16le 0 ++ u16le 0 ++ u32le 54 ++
    u32le 108 ++ u32le 1 ++ u32le 1 ++ u16le 1 ++ u16le 24 ++ u32le 1 ++
    u32le 0 ++ u32le 0 ++ u32le 0 ++ u32le 0 ++ u32le 0

/-! ## Properties of the bit-unpacking cursor -/

theorem bitIndexMk_eq (bytes : List Nat) (nbits size : Nat) (hn : nbits ≤ 8) :
    bitIndexMk bytes nbits size = some (bitState bytes nbits size 0) := by
  simp [bitIndexMk, bitState, Nat.not_lt.mpr hn]

theorem bitNext_bitState (bytes : List Nat) (nbits size j : Nat)
    (hn : nbits = 1 ∨ nbits = 4 ∨ nbits = 8) :
    bitNext (bitState bytes nbits size j) =
      some ((if j < size ∧ j * nbits < 8 * bytes.length
             then some (bitField bytes nbits j) else none),
            bitState bytes nbits size (j + 1)) := by
  have hmod : j * nbits % 8 ≤ 8 - nbits := by
    rcases hn with h | h | h <;> subst h <;> omega
  have hidx : j * nbits + nbits = (j + 1) * nbits := by ring
  unfold bitNext bitState
  simp only [Nat.not_lt.mpr hmod, if_false, hidx]
  by_cases hjs : size - j = 0
  · have hlt : ¬ (j < size) := by omega
    have hsub : size - (j + 1) = size - j := by omega
    simp [hjs, hlt, hsub]
  · have hlt : j < size := by omega
    have hsub : size - j - 1 = size - (j + 1) := by omega
    cases hget : bytes.get? (j * nbits / 8) with
    | none =>
      have hlen : bytes.length ≤ j * nbits / 8 := List.get?_eq_none.mp hget
      have hge : ¬ (j * nbits < 8 * bytes.length) := by
        have := (Nat.le_div_iff_mul_le (by omega : 0 < 8)).mp hlen
        omega
      simp [hjs, hget, hlt, hge, hsub]
    | some block =>
      have hlen : j * nbits / 8 < bytes.length := by
        by_contra hge
        rw [List.get?_eq_none.mpr (by omega)] at hget
        exact Option.noConfusion hget
      have hbound : j * nbits < 8 * bytes.length := by
        have := (Nat.div_lt_iff_lt_mul (by omega : 0 < 8)).mp hlen
        omega
      have hblock : block = bytes.getD (j * nbits / 8) 0 := by
        rw [List.getD_eq_getElem?_getD, ← List.get?_eq_getElem?, hget]
        rfl
      simp [hjs, hget, hlt, hbound, hsub, bitField, hblock]

theorem bitIndexResults_bitState (bytes : List Nat) (nbits size : Nat)
    (hn : nbits = 1 ∨ nbits = 4 ∨ nbits = 8) :
    ∀ k j, bitIndexResults k (bitState bytes nbits size j) =
      some ((List.range k).map fun t =>
        if j + t < size ∧ (j + t) * nbits < 8 * bytes.length
        then some (bitField bytes nbits (j + t)) else none) := by
  intro k
  induction k with
  | zero => intro j; simp [bitIndexResults]
  | succ k ih =>
    intro j
    simp only [bitIndexResults, bitNext_bitState bytes nbits size j hn, ih (j + 1)]
    rw [List.range_succ_eq_map, List.map_cons, List.map_map]
    have hshift : ∀ t : Nat, j + 1 + t = j + (t + 1) := fun t => by omega
    simp [Function.comp_def, hshift]

theorem and_shiftLeft_shiftRight_le (a m s : Nat) : (a &&& (m <<< s)) >>> s ≤ m := by
  have h1 : a &&& (m <<< s) ≤ m <<< s := Nat.and_le_right
  have h2 : (a &&& (m <<< s)) / 2 ^ s ≤ (m <<< s) / 2 ^ s := Nat.div_le_div_right h1
  have h3 : (m <<< s) / 2 ^ s = m := by
    rw [Nat.shiftLeft_eq]
    exact Nat.mul_div_cancel _ (Nat.pos_pow_of_pos _ (by omega))
  rw [Nat.shiftRight_eq_div_pow]
  omega

theorem bitField_lt (bytes : List Nat) (nbits i : Nat)
    (hn : nbits = 1 ∨ nbits = 4 ∨ nbits = 8) :
    bitField bytes nbits i < 2 ^ nbits := by
  have h3 : 255 >>> (8 - nbits) < 2 ^ nbits := by
    rcases hn with h | h | h <;> subst h <;> decide
  have h := and_shiftLeft_shiftRight_le (bytes.getD (i * nbits / 8) 0)
    (255 >>> (8 - nbits)) (8 - nbits - i * nbits % 8)
  unfold bitField
  exact lt_of_le_of_lt h h3

/-! ## Byte-level parsing lemmas -/

theorem drop_shift (d : List Nat) (x : List Nat) (p k : Nat) (h : d.drop p = x) :
    d.drop (p + k) = x.drop k := by
  rw [← List.drop_drop, h]

theorem assembleU32_parts (v : Nat) :
    v % 2 ^ 8 + 2 ^ 8 * (v / 2 ^ 8 % 2 ^ 8) + 2 ^ 16 * (v / 2 ^ 16 % 2 ^ 8) +
      2 ^ 24 * (v / 2 ^ 24 % 2 ^ 8) = v % 2 ^ 32 := by
  omega

theorem assembleU16_parts (v : Nat) :
    v % 2 ^ 8 + 2 ^ 8 * (v / 2 ^ 8 % 2 ^ 8) = v % 2 ^ 16 := by
  omega

theorem i32val_mod (n : Nat) : i32val (n % 2 ^ 32) = i32val n := by
  have h : n % 2 ^ 32 % 2 ^ 32 = n % 2 ^ 32 := by omega
  unfold i32val
  rw [h]

theorem readU32le_cons (d : List Nat) (p b0 b1 b2 b3 : Nat) (rest : List Nat)
    (hd : d.drop p = b0 :: b1 :: b2 :: b3 :: rest) :
    Cursor.readU32le ⟨d, p⟩ =
      Except.ok (b0 + 2 ^ 8 * b1 + 2 ^ 16 * b2 + 2 ^ 24 * b3, ⟨d, p + 4⟩) := by
  simp [Cursor.readU32le, Cursor.readExact, hd, assembleU32]

theorem readU16le_cons (d : List Nat) (p b0 b1 : Nat) (rest : List Nat)
    (hd : d.drop p = b0 :: b1 :: rest) :
    Cursor.readU16le ⟨d, p⟩ = Except.ok (b0 + 2 ^ 8 * b1, ⟨d, p + 2⟩) := by
  simp [Cursor.readU16le, Cursor.readExact, hd, assembleU16]

theorem readI32le_cons (d : List Nat) (p b0 b1 b2 b3 : Nat) (rest : List Nat)
    (hd : d.drop p = b0 :: b1 :: b2 :: b3 :: rest) :
    Cursor.readI32le ⟨d, p⟩ =
      Except.ok (i32val (b0 + 2 ^ 8 * b1 + 2 ^ 16 * b2 + 2 ^ 24 * b3), ⟨d, p + 4⟩) := by
  simp [Cursor.readI32le, Cursor.readExact, hd, assembleU32]

theorem readU32le_group (d : List Nat) (p v : Nat) (rest : List Nat)
    (hd : d.drop p = u32le v ++ rest) :
    Cursor.readU32le ⟨d, p⟩ = Except.ok (v % 2 ^ 32, ⟨d, p + 4⟩) ∧
      d.drop (p + 4) = rest := by
  have hd' : d.drop p = v % 2 ^ 8 :: v / 2 ^ 8 % 2 ^ 8 :: v / 2 ^ 16 % 2 ^ 8 ::
      v / 2 ^ 24 % 2 ^ 8 :: rest := by simpa [u32le] using hd
  refine ⟨?_, ?_⟩
  · rw [readU32le_cons d p _ _ _ _ rest hd', assembleU32_parts]
  · rw [drop_shift d _ p 4 hd']; rfl

theorem readU16le_group (d : List Nat) (p v : Nat) (rest : List Nat)
    (hd : d.drop p = u16le v ++ rest) :
    Cursor.readU16le ⟨d, p⟩ = Except.ok (v % 2 ^ 16, ⟨d, p + 2⟩) ∧
      d.drop (p + 2) = rest := by
  have hd' : d.drop p = v % 2 ^ 8 :: v / 2 ^ 8 % 2 ^ 8 :: rest := by simpa [u16le] using hd
  refine ⟨?_, ?_⟩
  · rw [readU16le_cons d p _ _ rest hd', assembleU16_parts]
  · rw [drop_shift d _ p 2 hd']; rfl

theorem readI32le_group (d : List Nat) (p v : Nat) (rest : List Nat)
    (hd : d.drop p = u32le v ++ rest) :
    Cursor.readI32le ⟨d, p⟩ = Except.ok (i32val v, ⟨d, p + 4⟩) ∧
      d.drop (p + 4) = rest := by
  have hd' : d.drop p = v % 2 ^ 8 :: v / 2 ^ 8 % 2 ^ 8 :: v / 2 ^ 16 % 2 ^ 8 ::
      v / 2 ^ 24 % 2 ^ 8 :: rest := by simpa [u32le] using hd
  refine ⟨?_, ?_⟩
  · rw [readI32le_cons d p _ _ _ _ rest hd', assembleU32_parts, i32val_mod]
  · rw [drop_shift d _ p 4 hd']; rfl

theorem readBmpId_magic (d : List Nat) (rest : List Nat) (hd : d.drop 0 = 66 :: 77 :: rest) :
    readBmpId ⟨d, 0⟩ = Except.ok ⟨d, 2⟩ ∧ d.drop 2 = rest := by
  refine ⟨?_, ?_⟩
  · simp [readBmpId, Cursor.readExact, hd]
  · have h := drop_shift d _ 0 2 hd
    simpa using h

theorem readBmpHeader_parse (d : List Nat) (p a b c pxo : Nat) (rest : List Nat)
    (hd : d.drop p = u32le a ++ (u16le b ++ (u16le c ++ (u32le pxo ++ rest)))) :
    readBmpHeader ⟨d, p⟩ =
      Except.ok (⟨a % 2 ^ 32, b % 2 ^ 16, c % 2 ^ 16, pxo % 2 ^ 32⟩, ⟨d, p + 12⟩) ∧
      d.drop (p + 12) = rest := by
  obtain ⟨h1, hd1⟩ := readU32le_group d p a _ hd
  obtain ⟨h2, hd2⟩ := readU16le_group d (p + 4) b _ hd1
  obtain ⟨h3, hd3⟩ := readU16le_group d (p + 4 + 2) c _ hd2
  obtain ⟨h4, hd4⟩ := readU32le_group d (p + 4 + 2 + 2) pxo _ hd3
  have hp : p + 4 + 2 + 2 + 4 = p + 12 := by omega
  refine ⟨?_, ?_⟩
  · simp only [readBmpHeader, h1, h2, h3, h4, bind, Except.bind, hp]
  · rw [← hp]; exact hd4

theorem readDibFields_parse (d : List Nat)
    (p hs wd ht pl bpp ct ds hr vr nc nic : Nat) (rest : List Nat)
    (hd : d.drop p = u32le hs ++ (u32le wd ++ (u32le ht ++ (u16le pl ++ (u16le bpp ++
      (u32le ct ++ (u32le ds ++ (u32le hr ++ (u32le vr ++ (u32le nc ++
      (u32le nic ++ rest))))))))))) :
    readDibFields ⟨d, p⟩ =
      Except.ok (⟨hs % 2 ^ 32, i32val wd, i32val ht, pl % 2 ^ 16, bpp % 2 ^ 16,
        ct % 2 ^ 32, ds % 2 ^ 32, i32val hr, i32val vr, nc % 2 ^ 32, nic % 2 ^ 32⟩,
        ⟨d, p + 40⟩) ∧
      d.drop (p + 40) = rest := by
  obtain ⟨h1, hd1⟩ := readU32le_group d p hs _ hd
  obtain ⟨h2, hd2⟩ := readI32le_group d (p + 4) wd _ hd1
  obtain ⟨h3, hd3⟩ := readI32le_group d (p + 4 + 4) ht _ hd2
  obtain ⟨h4, hd4⟩ := readU16le_group d (p + 4 + 4 + 4) pl _ hd3
  obtain ⟨h5, hd5⟩ := readU16le_group d (p + 4 + 4 + 4 + 2) bpp _ hd4
  obtain ⟨h6, hd6⟩ := readU32le_group d (p + 4 + 4 + 4 + 2 + 2) ct _ hd5
  obtain ⟨h7, hd7⟩ := readU32le_group d (p + 4 + 4 + 4 + 2 + 2 + 4) ds _ hd6
  obtain ⟨h8, hd8⟩ := readI32le_group d (p + 4 + 4 + 4 + 2 + 2 + 4 + 4) hr _ hd7
  obtain ⟨h9, hd9⟩ := readI32le_group d (p + 4 + 4 + 4 + 2 + 2 + 4 + 4 + 4) vr _ hd8
  obtain ⟨h10, hd10⟩ := readU32le_group d (p + 4 + 4 + 4 + 2 + 2 + 4 + 4 + 4 + 4) nc _ hd9
  obtain ⟨h11, hd11⟩ :=
    readU32le_group d (p + 4 + 4 + 4 + 2 + 2 + 4 + 4 + 4 + 4 + 4) nic _ hd10
  have hp : p + 4 + 4 + 4 + 2 + 2 + 4 + 4 + 4 + 4 + 4 + 4 = p + 40 := by omega
  refine ⟨?_, ?_⟩
  · simp only [readDibFields, h1, h2, h3, h4, h5, h6, h7, h8, h9, h10, h11,
      bind, Except.bind, hp]
  · rw [← hp]; exact hd11

/-! ## Decoding an encoded image -/

theorem encodeImage_drop0 (img : Image) :
    (encodeImage img).drop 0 =
      66 :: 77 :: (u32le (54 + img.height * (((24 * img.width + 31) / 32) * 4)) ++
        (u16le 0 ++ (u16le 0 ++ (u32le 54 ++ (u32le 40 ++ (u32le img.width ++
        (u32le img.height ++ (u16le 1 ++ (u16le 24 ++ (u32le 0 ++
        (u32le (img.height * (((24 * img.width + 31) / 32) * 4)) ++ (u32le 1000 ++
        (u32le 1000 ++ (u32le 0 ++ (u32le 0 ++
        encodeRows img.width img.data img.height))))))))))))))) := by
  simp [encodeImage]

theorem decodeImage_encodeImage (img : Image) :
    decodeImage ⟨encodeImage img, 0⟩ =
      match readPixels ⟨encodeImage img, 54⟩ (i32val img.width).natAbs
          (i32val img.height).natAbs 54 ((i32val img.width).natAbs % 4) with
      | Except.error e => DecodeResult.err e
      | Except.ok (data, _) =>
        DecodeResult.ok
          ⟨⟨(54 + img.height * (((24 * img.width + 31) / 32) * 4)) % 2 ^ 32, 0, 0, 54⟩,
            BmpDibHeader.new (i32val (i32val img.width).natAbs)
              (i32val (i32val img.height).natAbs),
            none, (i32val img.width).natAbs, (i32val img.height).natAbs,
            (i32val img.width).natAbs % 4, data⟩ := by
  obtain ⟨hid, hd2⟩ := readBmpId_magic (encodeImage img) _ (encodeImage_drop0 img)
  obtain ⟨hhdr, hd14⟩ := readBmpHeader_parse (encodeImage img) 2
    (54 + img.height * (((24 * img.width + 31) / 32) * 4)) 0 0 54 _ hd2
  norm_num at hhdr hd14
  obtain ⟨hdib, hd54⟩ := readDibFields_parse (encodeImage img) 14 40 img.width img.height
    1 24 0 (img.height * (((24 * img.width + 31) / 32) * 4)) 1000 1000 0 0 _ hd14
  norm_num at hdib hd54
  simp only [decodeImage, hid, hhdr, readBmpDibHeader, hdib, bind, Except.bind,
    checkDibHeader, BmpVersion.fromDibHeader, CompressionType.fromU32,
    decodeAfterHeaders, readColorPalette, paletteNumEntries]
  norm_num

theorem encodeRow_cons (px : Pixel) (rest : List Pixel) :
    encodeRow (px :: rest) = px.b :: px.g :: px.r :: encodeRow rest := by
  simp [encodeRow]

theorem readPxRow_encode (d : List Nat) :
    ∀ (row : List Pixel) (p : Nat) (rest : List Nat),
      d.drop p = encodeRow row ++ rest →
      readPxRow ⟨d, p⟩ row.length = Except.ok (row, ⟨d, p + 3 * row.length⟩) ∧
      d.drop (p + 3 * row.length) = rest := by
  intro row
  induction row with
  | nil =>
    intro p rest hd
    simp [encodeRow] at hd
    refine ⟨?_, ?_⟩
    · simp [readPxRow]
    · simpa using hd
  | cons px row ih =>
    intro p rest hd
    rw [encodeRow_cons, List.cons_append, List.cons_append, List.cons_append] at hd
    have hd3 : d.drop (p + 3) = encodeRow row ++ rest := by
      rw [drop_shift d _ p 3 hd]
      rfl
    obtain ⟨hrow, hrest⟩ := ih (p + 3) rest hd3
    have hread : Cursor.readExact ⟨d, p⟩ 3 =
        Except.ok ([px.b, px.g, px.r], ⟨d, p + 3⟩) := by
      simp [Cursor.readExact, hd]
    have hlen : (px :: row).length = row.length + 1 := rfl
    have hpos : p + 3 + 3 * row.length = p + 3 * (px :: row).length := by
      simp [List.length_cons]; omega
    refine ⟨?_, ?_⟩
    · rw [hlen]
      simp only [readPxRow, hread, hrow]
      rw [← hlen, hpos]
      rfl
    · rw [← hpos]
      exact hrest

theorem readPxRows_encode (d : List Nat) (w : Nat) :
    ∀ (h : Nat) (dat : List Pixel) (p : Nat) (rest : List Nat),
      dat.length = w * h →
      d.drop p = encodeRows w dat h ++ rest →
      readPxRows ⟨d, p⟩ w (w % 4) h =
        Except.ok (dat, ⟨d, p + (3 * w + w % 4) * h⟩) ∧
      d.drop (p + (3 * w + w % 4) * h) = rest := by
  intro h
  induction h with
  | zero =>
    intro dat p rest hlen hd
    have hnil : dat = [] := List.eq_nil_of_length_eq_zero (by omega)
    subst hnil
    simp only [encodeRows, List.nil_append] at hd
    refine ⟨?_, ?_⟩
    · simp [readPxRows]
    · simpa using hd
  | succ h ih =>
    intro dat p rest hlen hd
    have hexp : encodeRows w dat (h + 1) =
        encodeRow (dat.take w) ++ List.replicate (w % 4) 0 ++
          encodeRows w (dat.drop w) h := rfl
    rw [hexp, List.append_assoc, List.append_assoc] at hd
    have hrowlen : (dat.take w).length = w := by
      rw [List.length_take]
      have : w ≤ w * (h + 1) := by nlinarith
      omega
    obtain ⟨hrow, hd1⟩ := readPxRow_encode d (dat.take w) p _ hd
    rw [hrowlen] at hrow hd1
    have hd2 : d.drop (p + 3 * w + w % 4) =
        encodeRows w (dat.drop w) h ++ rest := by
      have hds := drop_shift d _ (p + 3 * w) (w % 4) hd1
      rw [List.drop_append_of_le_length (by simp)] at hds
      simpa using hds
    have hdroplen : (dat.drop w).length = w * h := by
      rw [List.length_drop]
      have : w * (h + 1) = w * h + w := by ring
      omega
    obtain ⟨hrows, hdfin⟩ := ih (dat.drop w) (p + 3 * w + w % 4) rest hdroplen hd2
    have hpos : p + 3 * w + w % 4 + (3 * w + w % 4) * h =
        p + (3 * w + w % 4) * (h + 1) := by
      rw [Nat.mul_succ]; omega
    refine ⟨?_, ?_⟩
    · simp only [readPxRows, hrow, Cursor.seekCur, hrows, hpos, List.take_append_drop]
    · rw [← hpos]
      exact hdfin

theorem applySetPixels_width : ∀ (ops : List (Nat × Nat × Pixel)) (img : Image),
    (applySetPixels img ops).width = img.width := by
  intro ops
  induction ops with
  | nil => intro img; rfl
  | cons op rest ih =>
    intro img
    obtain ⟨x, y, v⟩ := op
    rw [applySetPixels, ih]
    rfl

theorem applySetPixels_height : ∀ (ops : List (Nat × Nat × Pixel)) (img : Image),
    (applySetPixels img ops).height = img.height := by
  intro ops
  induction ops with
  | nil => intro img; rfl
  | cons op rest ih =>
    intro img
    obtain ⟨x, y, v⟩ := op
    rw [applySetPixels, ih]
    rfl

theorem applySetPixels_data_length : ∀ (ops : List (Nat × Nat × Pixel)) (img : Image),
    (applySetPixels img ops).data.length = img.data.length := by
  intro ops
  induction ops with
  | nil => intro img; rfl
  | cons op rest ih =>
    intro img
    obtain ⟨x, y, v⟩ := op
    rw [applySetPixels, ih]
    simp [Image.setPixel]

theorem natAbs_i32val_of_le (w : Nat) (hw : w ≤ 2 ^ 31) : (i32val w).natAbs = w := by
  unfold i32val
  have h32 : w % 2 ^ 32 = w := Nat.mod_eq_of_lt (by omega)
  rw [h32]
  by_cases hlt : w < 2 ^ 31
  · rw [if_pos hlt]
    exact Int.natAbs_ofNat w
  · rw [if_neg hlt]
    have hw' : w = 2 ^ 31 := by omega
    subst hw'
    decide

theorem encodeImage_drop54 (img : Image) :
    (encodeImage img).drop 54 = encodeRows img.width img.data img.height := by
  simp [encodeImage, u32le, u16le]

/-! ## Claim C1: round trip -/

/-- C1 (amended): for every width and height with `0 < w ≤ 2^31`,
`0 < h ≤ 2^31` and `w * h < 2^32`, and every assignment of pixel values
applied to `Image::new(w,h)` via `set_pixel` at in-range coordinates, decoding
the bytes produced by encoding the image succeeds and yields an image of the
same width and height whose `get_pixel(x,y)` equals the original's for every
`x < w`, `y < h`, and whose `padding` field is `w mod 4`.  (Both bounds are
forced — `c1_width_overflow` shows the claim fails at `w = 2^31 + 1, h = 1`,
where the signed 32-bit DIB width field cannot carry `w`, and at
`w = 2^31, h = 2`, where the `u32` product `width * height` in `Image::new`
overflows and the pixel buffer is empty.) -/
theorem c1_round_trip (w h : Nat) (ops : List (Nat × Nat × Pixel))
    (hw : 0 < w) (hh : 0 < h) (hw31 : w ≤ 2 ^ 31) (hh31 : h ≤ 2 ^ 31)
    (hwh : w * h < 2 ^ 32)
    (hops : ∀ op ∈ ops, op.1 < w ∧ op.2.1 < h) :
    ∃ img', decodeImage ⟨encodeImage (applySetPixels (Image.new w h) ops), 0⟩ =
        DecodeResult.ok img' ∧
      img'.width = w ∧ img'.height = h ∧ img'.padding = w % 4 ∧
      ∀ x y, x < w → y < h →
        img'.getPixel x y = (applySetPixels (Image.new w h) ops).getPixel x y := by
  have hwidth : (applySetPixels (Image.new w h) ops).width = w := by
    rw [applySetPixels_width]
    rfl
  have hheight : (applySetPixels (Image.new w h) ops).height = h := by
    rw [applySetPixels_height]
    rfl
  have hdlen : (applySetPixels (Image.new w h) ops).data.length = w * h := by
    rw [applySetPixels_data_length]
    have hrep : (Image.new w h).data.length = w * h % 2 ^ 32 := by
      simp [Image.new]
    rw [hrep]
    exact Nat.mod_eq_of_lt hwh
  have hd54 : (encodeImage (applySetPixels (Image.new w h) ops)).drop 54 =
      encodeRows w (applySetPixels (Image.new w h) ops).data h ++ [] := by
    rw [List.append_nil, encodeImage_drop54, hwidth, hheight]
  obtain ⟨hpix, _⟩ := readPxRows_encode (encodeImage (applySetPixels (Image.new w h) ops))
    w h (applySetPixels (Image.new w h) ops).data 54 [] hdlen hd54
  have hdec := decodeImage_encodeImage (applySetPixels (Image.new w h) ops)
  rw [hwidth, hheight, natAbs_i32val_of_le w hw31, natAbs_i32val_of_le h hh31] at hdec
  simp only [readPixels, Cursor.seekTo, hpix] at hdec
  refine ⟨_, hdec, rfl, rfl, rfl, ?_⟩
  intro x y hx hy
  simp only [Image.getPixel, hwidth, hheight]

/-- Witness for `c1_round_trip`: the 2×2 red/lime/blue/white image of the
repository's own tests. -/
theorem c1_round_trip_witness :
    ∃ img', decodeImage ⟨encodeImage (applySetPixels (Image.new 2 2)
        [(0, 0, ⟨255, 0, 0⟩), (1, 0, ⟨0, 255, 0⟩), (0, 1, ⟨0, 0, 255⟩),
         (1, 1, ⟨255, 255, 255⟩)]), 0⟩ = DecodeResult.ok img' ∧
      img'.width = 2 ∧ img'.height = 2 ∧ img'.padding = 2 % 4 ∧
      ∀ x y, x < 2 → y < 2 →
        img'.getPixel x y = (applySetPixels (Image.new 2 2)
          [(0, 0, ⟨255, 0, 0⟩), (1, 0, ⟨0, 255, 0⟩), (0, 1, ⟨0, 0, 255⟩),
           (1, 1, ⟨255, 255, 255⟩)]).getPixel x y :=
  c1_round_trip 2 2 _ (by decide) (by decide) (by decide) (by decide) (by decide) (by decide)

/-- C1 counterexample, two parts, each with the empty assignment.  At
`w = 2^31 + 1`, `h = 1` the claim as stated fails: the encoded DIB width field
is signed 32-bit and the decoder takes its absolute value, so the decoder
never returns an image of width `2^31 + 1` (it recovers `2^31 - 1`).  At
`w = 2^31`, `h = 2` (inside the per-dimension `i32` range) it also fails:
`Image::new`'s `u32` product `width * height` wraps to 0, the pixel buffer is
empty, the encoded file has no pixel bytes, and re-decoding fails with the
wrapped I/O error instead of an image of width `2^31`. -/
theorem c1_width_overflow :
    (decodeImage ⟨encodeImage (applySetPixels (Image.new (2 ^ 31 + 1) 1) []), 0⟩).widthOf ≠
      some (2 ^ 31 + 1) ∧
    (decodeImage ⟨encodeImage (applySetPixels (Image.new (2 ^ 31) 2) []), 0⟩).widthOf ≠
      some (2 ^ 31) := by
  refine ⟨?_, by decide⟩
  have hdec := decodeImage_encodeImage (applySetPixels (Image.new (2 ^ 31 + 1) 1) [])
  have hw : (applySetPixels (Image.new (2 ^ 31 + 1) 1) []).width = 2 ^ 31 + 1 := rfl
  have hh : (applySetPixels (Image.new (2 ^ 31 + 1) 1) []).height = 1 := rfl
  rw [hw, hh] at hdec
  have habs : (i32val (2 ^ 31 + 1)).natAbs = 2 ^ 31 - 1 := by decide
  have habs1 : (i32val 1).natAbs = 1 := by decide
  rw [habs, habs1] at hdec
  rw [hdec]
  cases hres : readPixels ⟨encodeImage (applySetPixels (Image.new (2 ^ 31 + 1) 1) []), 54⟩
      (2 ^ 31 - 1) 1 54 ((2 ^ 31 - 1) % 4) with
  | error e =>
    simp [DecodeResult.widthOf]
  | ok pr =>
    obtain ⟨dat, cur⟩ := pr
    simp only [DecodeResult.widthOf, Ne, Option.some.injEq]
    norm_num

/-! ## Claims C3, C10, C2: the bit-unpacking cursor -/

/-- C3: over any byte slice, for `nbits ∈ {1,4,8}` and any `size`, the
`bit_index` iterator yields exactly `min size ((8·|bytes|) div nbits)` values,
the `i`-th being the `nbits`-wide field at bit offset `i·nbits` read MSB-first
(`(bytes[(i*nbits)/8] & (mask << shift)) >> shift` with
`shift = (8-nbits) - ((i*nbits) mod 8)` and `mask = 0xFF >> (8-nbits)`); every
further request yields nothing, `size = 0` yields nothing immediately, and the
sequence ends at the data boundary when `size` exceeds the available fields —
including the three example sequences over `[0b10000001, 0b11110001]`. -/
theorem c3_bit_index_yields (bytes : List Nat) (nbits size : Nat)
    (hn : nbits = 1 ∨ nbits = 4 ∨ nbits = 8) :
    (∃ b, bitIndexMk bytes nbits size = some b ∧
      ∀ k, bitIndexResults k b =
        some ((List.range k).map fun i =>
          if i < min size (8 * bytes.length / nbits)
          then some (bitField bytes nbits i) else none)) ∧
    (bitIndexMk [129, 241] 1 15).bind (bitIndexResults 17) =
      some [some 1, some 0, some 0, some 0, some 0, some 0, some 0, some 1,
        some 1, some 1, some 1, some 1, some 0, some 0, some 0, none, none] ∧
    (bitIndexMk [129, 241] 4 4).bind (bitIndexResults 5) =
      some [some 8, some 1, some 15, some 1, none] ∧
    (bitIndexMk [129, 241] 8 2).bind (bitIndexResults 3) =
      some [some 129, some 241, none] ∧
    (bitIndexMk [129] 8 5).bind (bitIndexResults 6) =
      some [some 129, none, none, none, none, none] ∧
    (bitIndexMk [129, 241] 4 0).bind (bitIndexResults 1) = some [none] := by
  refine ⟨⟨bitState bytes nbits size 0,
    bitIndexMk_eq bytes nbits size (by rcases hn with h | h | h <;> omega), ?_⟩,
    by decide, by decide, by decide, by decide, by decide⟩
  intro k
  rw [bitIndexResults_bitState bytes nbits size hn k 0]
  congr 1
  apply List.map_congr_left
  intro i _
  simp only [Nat.zero_add]
  exact if_congr (by rcases hn with h | h | h <;> subst h <;> omega) rfl rfl

/-- Witness for `c3_bit_index_yields` at `nbits = 4`. -/
theorem c3_bit_index_yields_witness :
    ((4 : Nat) = 1 ∨ (4 : Nat) = 4 ∨ (4 : Nat) = 8) ∧
    (∃ b, bitIndexMk [129, 241] 4 3 = some b ∧
      ∀ k, bitIndexResults k b =
        some ((List.range k).map fun i =>
          if i < min 3 (8 * [129, 241].length / 4)
          then some (bitField [129, 241] 4 i) else none)) :=
  ⟨by decide, (c3_bit_index_yields [129, 241] 4 3 (by decide)).1⟩

/-- C10: for `nbits ∈ {1,4,8}` the construction of `bit_index` and every
successive `next` call are well defined: no `usize` underflow in the shift
computation and no abort of any kind, over any byte slice and any `size`. -/
theorem c10_next_never_aborts (bytes : List Nat) (nbits size k : Nat)
    (hn : nbits = 1 ∨ nbits = 4 ∨ nbits = 8) :
    ∃ b, bitIndexMk bytes nbits size = some b ∧ bitIndexResults k b ≠ none := by
  refine ⟨bitState bytes nbits size 0,
    bitIndexMk_eq bytes nbits size (by rcases hn with h | h | h <;> omega), ?_⟩
  rw [bitIndexResults_bitState bytes nbits size hn k 0]
  simp

/-- Witness for `c10_next_never_aborts`. -/
theorem c10_next_never_aborts_witness :
    ((1 : Nat) = 1 ∨ (1 : Nat) = 4 ∨ (1 : Nat) = 8) ∧
    ∃ b, bitIndexMk [129] 1 3 = some b ∧ bitIndexResults 5 b ≠ none :=
  ⟨by decide, c10_next_never_aborts [129] 1 3 5 (by decide)⟩

/-- C2 (amended): every index yielded by `bit_index(bytes, nbits, size)` with
`nbits ∈ {1,4,8}` is strictly below `2^nbits`; hence whenever the palette has
at least `2^nbits` entries — in particular whenever `num_colors = 0`, where
`read_color_palette` builds exactly `2^bits_per_pixel` entries — the lookup
`palette[i]` in `read_indexes` is in range.  (The claim as stated, for every
palette that can emerge from a validated header, fails when
`0 < num_colors < 2^bits_per_pixel`: see `c2_small_palette_aborts`.) -/
theorem c2_indexes_in_range (bytes : List Nat) (nbits size k : Nat)
    (palette : List Pixel) (b : BitIndex) (res : List (Option Nat))
    (hn : nbits = 1 ∨ nbits = 4 ∨ nbits = 8)
    (hpal : 2 ^ nbits ≤ palette.length)
    (hmk : bitIndexMk bytes nbits size = some b)
    (hres : bitIndexResults k b = some res) :
    ∀ i, some i ∈ res → i < palette.length ∧ palette.get? i ≠ none := by
  rw [bitIndexMk_eq bytes nbits size (by rcases hn with h | h | h <;> omega)] at hmk
  obtain rfl : b = bitState bytes nbits size 0 := (Option.some.inj hmk).symm
  rw [bitIndexResults_bitState bytes nbits size hn k 0] at hres
  obtain rfl : res = _ := (Option.some.inj hres).symm
  intro i hi
  rw [List.mem_map] at hi
  obtain ⟨t, _, ht⟩ := hi
  by_cases hcond : 0 + t < size ∧ (0 + t) * nbits < 8 * bytes.length
  · rw [if_pos hcond] at ht
    have hlt := bitField_lt bytes nbits (0 + t) hn
    have hieq : bitField bytes nbits (0 + t) = i := Option.some.inj ht
    refine ⟨by omega, ?_⟩
    rw [Ne, List.get?_eq_none]
    omega
  · rw [if_neg hcond] at ht
    exact absurd ht (by simp)

/-- Witness for `c2_indexes_in_range`: one packed 1-bit row byte `0b1000_0000`
over a two-entry palette. -/
theorem c2_indexes_in_range_witness :
    1 < ([⟨0, 0, 0⟩, ⟨9, 9, 9⟩] : List Pixel).length ∧
    ([⟨0, 0, 0⟩, ⟨9, 9, 9⟩] : List Pixel).get? 1 ≠ none :=
  c2_indexes_in_range [128] 1 1 2 [⟨0, 0, 0⟩, ⟨9, 9, 9⟩]
    (bitState [128] 1 1 0) [some 1, none] (by decide) (by decide)
    (by decide) (by decide) 1 (by decide)

/-- C2 counterexample: the complete stream `oneColorIndexedBytes` (1×1, 1 bpp,
`num_colors = 1`) passes the signature and DIB-header validation and its
one-entry palette is read successfully, yet the packed index of its single
pixel is 1, which is not below the palette length 1 — the decode aborts on the
out-of-range `palette[1]` (the row slice itself is in range: the stream has 62
bytes and the row occupies byte 58). -/
theorem c2_small_palette_aborts :
    decodeImage ⟨oneColorIndexedBytes, 0⟩ = DecodeResult.aborted ∧
    (bitIndexMk [128] 1 1).bind (bitIndexResults 1) = some [some 1] ∧
    readColorPalette ⟨oneColorIndexedBytes, 54⟩ ⟨40, 1, 1, 1, 1, 0, 4, 0, 0, 1, 0⟩ =
      Except.ok (some [⟨30, 20, 10⟩], ⟨oneColorIndexedBytes, 58⟩) ∧
    oneColorIndexedBytes.length = 62 :=
  ⟨by decide, by decide, by rfl, by decide⟩

/-! ## Claim C9: truncated pixel data -/

/-- C9: `truncatedIndexedBytes` passes every header, version, depth,
compression and palette check but its pixel-data region is empty
(`pixel_offset = 62` at a 62-byte stream, shorter than the
`height · (bytes_per_row + padding)` bytes the indexed read needs), and the
decode aborts on the out-of-range row slice instead of returning an error;
the 24-bpp direct path surfaces the same truncation as a wrapped I/O error. -/
theorem c9_truncated_indexed_aborts :
    decodeImage ⟨truncatedIndexedBytes, 0⟩ = DecodeResult.aborted ∧
    decodeImage ⟨truncatedDirectBytes, 0⟩ =
      DecodeResult.err ⟨BmpErrorKind.BmpIoError, "Io Error"⟩ :=
  ⟨by decide, by decide⟩

/-! ## Error propagation: everything after the DIB-header checks fails only
with the wrapped I/O error (or aborts, or succeeds) -/

theorem readExact_error (c : Cursor) (n : Nat) (e : BmpError)
    (h : c.readExact n = Except.error e) : e = ioError := by
  simp only [Cursor.readExact] at h
  by_cases hc : ((c.data.drop c.pos).take n).length = n
  · rw [if_pos hc] at h
    exact Except.noConfusion h
  · rw [if_neg hc] at h
    exact (Except.error.inj h).symm

theorem readPaletteEntries_error (n : Nat) : ∀ (c : Cursor) (e : BmpError),
    readPaletteEntries c n = Except.error e → e = ioError := by
  induction n with
  | zero =>
    intro c e h
    exact Except.noConfusion h
  | succ n ih =>
    intro c e h
    rw [readPaletteEntries] at h
    cases hx : c.readExact 4 with
    | error e1 =>
      simp only [hx] at h
      exact (Except.error.inj h) ▸ readExact_error c 4 e1 hx
    | ok pr =>
      obtain ⟨px, c'⟩ := pr
      simp only [hx] at h
      cases hy : readPaletteEntries c' n with
      | error e2 =>
        simp only [hy] at h
        exact (Except.error.inj h) ▸ ih c' e2 hy
      | ok pr2 =>
        obtain ⟨rest, c''⟩ := pr2
        simp only [hy] at h
        exact Except.noConfusion h

theorem readColorPalette_error (c : Cursor) (dh : BmpDibHeader) (e : BmpError)
    (hver : BmpVersion.fromDibHeader dh ≠ some BmpVersion.Two)
    (h : readColorPalette c dh = Except.error e) : e = ioError := by
  unfold readColorPalette at h
  cases hn : paletteNumEntries dh with
  | none =>
    simp only [hn] at h
    exact Except.noConfusion h
  | some n =>
    rw [hn] at h
    cases hv : BmpVersion.fromDibHeader dh with
    | none =>
      rw [hv] at h
      cases hy : readPaletteEntries (c.seekTo (14 + dh.header_size)) n with
      | error e2 =>
        simp only [hy] at h
        exact (Except.error.inj h) ▸ readPaletteEntries_error n _ e2 hy
      | ok pr =>
        obtain ⟨pal, c'⟩ := pr
        simp only [hy] at h
        exact Except.noConfusion h
    | some v =>
      cases v with
      | Two => exact absurd hv hver
      | Three =>
        rw [hv] at h
        cases hy : readPaletteEntries (c.seekTo (14 + dh.header_size)) n with
        | error e2 =>
          simp only [hy] at h
          exact (Except.error.inj h) ▸ readPaletteEntries_error n _ e2 hy
        | ok pr =>
          obtain ⟨pal, c'⟩ := pr
          simp only [hy] at h
          exact Except.noConfusion h
      | ThreeNT =>
        rw [hv] at h
        cases hy : readPaletteEntries (c.seekTo (14 + dh.header_size)) n with
        | error e2 =>
          simp only [hy] at h
          exact (Except.error.inj h) ▸ readPaletteEntries_error n _ e2 hy
        | ok pr =>
          obtain ⟨pal, c'⟩ := pr
          simp only [hy] at h
          exact Except.noConfusion h
      | Four =>
        rw [hv] at h
        cases hy : readPaletteEntries (c.seekTo (14 + dh.header_size)) n with
        | error e2 =>
          simp only [hy] at h
          exact (Except.error.inj h) ▸ readPaletteEntries_error n _ e2 hy
        | ok pr =>
          obtain ⟨pal, c'⟩ := pr
          simp only [hy] at h
          exact Except.noConfusion h
      | Five =>
        rw [hv] at h
        cases hy : readPaletteEntries (c.seekTo (14 + dh.header_size)) n with
        | error e2 =>
          simp only [hy] at h
          exact (Except.error.inj h) ▸ readPaletteEntries_error n _ e2 hy
        | ok pr =>
          obtain ⟨pal, c'⟩ := pr
          simp only [hy] at h
          exact Except.noConfusion h

theorem readPxRow_error (n : Nat) : ∀ (c : Cursor) (e : BmpError),
    readPxRow c n = Except.error e → e = ioError := by
  induction n with
  | zero =>
    intro c e h
    exact Except.noConfusion h
  | succ n ih =>
    intro c e h
    rw [readPxRow] at h
    cases hx : c.readExact 3 with
    | error e1 =>
      simp only [hx] at h
      exact (Except.error.inj h) ▸ readExact_error c 3 e1 hx
    | ok pr =>
      obtain ⟨px, c'⟩ := pr
      simp only [hx] at h
      cases hy : readPxRow c' n with
      | error e2 =>
        simp only [hy] at h
        exact (Except.error.inj h) ▸ ih c' e2 hy
      | ok pr2 =>
        obtain ⟨rest, c''⟩ := pr2
        simp only [hy] at h
        exact Except.noConfusion h

theorem readPxRows_error (height : Nat) : ∀ (c : Cursor) (width padding : Nat) (e : BmpError),
    readPxRows c width padding height = Except.error e → e = ioError := by
  induction height with
  | zero =>
    intro c width padding e h
    exact Except.noConfusion h
  | succ height ih =>
    intro c width padding e h
    rw [readPxRows] at h
    cases hx : readPxRow c width with
    | error e1 =>
      simp only [hx] at h
      exact (Except.error.inj h) ▸ readPxRow_error width c e1 hx
    | ok pr =>
      obtain ⟨row, c1⟩ := pr
      simp only [hx] at h
      cases hy : readPxRows (c1.seekCur padding) width padding height with
      | error e2 =>
        simp only [hy] at h
        exact (Except.error.inj h) ▸ ih _ _ _ e2 hy
      | ok pr2 =>
        obtain ⟨rest, c2⟩ := pr2
        simp only [hy] at h
        exact Except.noConfusion h

theorem readPixels_error (c : Cursor) (width height offset padding : Nat) (e : BmpError)
    (h : readPixels c width height offset padding = Except.error e) : e = ioError :=
  readPxRows_error height _ width padding e h

theorem decodeAfterHeaders_err (hdr : BmpHeader) (dh : BmpDibHeader) (c : Cursor)
    (e : BmpError)
    (hver : BmpVersion.fromDibHeader dh ≠ some BmpVersion.Two)
    (h : decodeAfterHeaders hdr dh c = DecodeResult.err e) : e = ioError := by
  simp only [decodeAfterHeaders] at h
  cases hp : readColorPalette c dh with
  | error e1 =>
    simp only [hp] at h
    exact (DecodeResult.err.inj h) ▸ readColorPalette_error c dh e1 hver hp
  | ok pr =>
    obtain ⟨pal, c4⟩ := pr
    simp only [hp] at h
    cases pal with
    | some palette =>
      cases hi : readIndexes c4.data palette dh.width.natAbs dh.height.natAbs
          dh.bits_per_pixel hdr.pixel_offset with
      | none =>
        simp only [hi] at h
        exact DecodeResult.noConfusion h
      | some dat =>
        simp only [hi] at h
        exact DecodeResult.noConfusion h
    | none =>
      cases hx : readPixels c4 dh.width.natAbs dh.height.natAbs hdr.pixel_offset
          (dh.width.natAbs % 4) with
      | error e2 =>
        simp only [hx] at h
        exact (DecodeResult.err.inj h) ▸ readPixels_error _ _ _ _ _ e2 hx
      | ok pr2 =>
        obtain ⟨dat, c5⟩ := pr2
        simp only [hx] at h
        exact DecodeResult.noConfusion h

theorem decodeImage_parse_eq (data : List Nat) (c1 c2 c3 : Cursor)
    (hdr : BmpHeader) (dh : BmpDibHeader)
    (hid : readBmpId ⟨data, 0⟩ = Except.ok c1)
    (hhdr : readBmpHeader c1 = Except.ok (hdr, c2))
    (hdib : readDibFields c2 = Except.ok (dh, c3)) :
    decodeImage ⟨data, 0⟩ =
      match checkDibHeader dh with
      | Except.error e => DecodeResult.err e
      | Except.ok _ => decodeAfterHeaders hdr dh c3 := by
  simp only [decodeImage, hid, hhdr, readBmpDibHeader, hdib, bind, Except.bind]
  cases hc : checkDibHeader dh with
  | error e => simp only [hc]
  | ok u =>
    cases u
    simp only [hc]

theorem checkDibHeader_goodVersion_err (dh : BmpDibHeader) (e : BmpError)
    (hv : BmpVersion.fromDibHeader dh = some BmpVersion.Three ∨
      BmpVersion.fromDibHeader dh = some BmpVersion.Four ∨
      BmpVersion.fromDibHeader dh = some BmpVersion.Five)
    (h : checkDibHeader dh = Except.error e) :
    e.kind = BmpErrorKind.UnsupportedBitsPerPixel ∨
    e.kind = BmpErrorKind.UnsupportedCompressionType := by
  have hred : checkDibHeader dh =
      (if dh.bits_per_pixel = 1 ∨ dh.bits_per_pixel = 4 ∨ dh.bits_per_pixel = 8 ∨
          dh.bits_per_pixel = 24 then
        match CompressionType.fromU32 dh.compress_type with
        | CompressionType.Uncompressed => Except.ok ()
        | other => Except.error ⟨BmpErrorKind.UnsupportedCompressionType, other.asRefStr⟩
      else Except.error ⟨BmpErrorKind.UnsupportedBitsPerPixel,
        unsupportedBppDetails dh.bits_per_pixel⟩) := by
    rcases hv with hv | hv | hv <;> simp only [checkDibHeader, hv]
  rw [hred] at h
  by_cases hbpp : dh.bits_per_pixel = 1 ∨ dh.bits_per_pixel = 4 ∨ dh.bits_per_pixel = 8 ∨
      dh.bits_per_pixel = 24
  · rw [if_pos hbpp] at h
    cases hct : CompressionType.fromU32 dh.compress_type with
    | Uncompressed =>
      simp only [hct] at h
      exact Except.noConfusion h
    | Rle8bit =>
      simp only [hct] at h
      right
      rw [← Except.error.inj h]
    | Rle4bit =>
      simp only [hct] at h
      right
      rw [← Except.error.inj h]
    | BitfieldsEncoding =>
      simp only [hct] at h
      right
      rw [← Except.error.inj h]
  · rw [if_neg hbpp] at h
    left
    rw [← Except.error.inj h]

theorem decode_goodVersion_kinds (data : List Nat) (c1 c2 c3 : Cursor)
    (hdr : BmpHeader) (dh : BmpDibHeader)
    (hid : readBmpId ⟨data, 0⟩ = Except.ok c1)
    (hhdr : readBmpHeader c1 = Except.ok (hdr, c2))
    (hdib : readDibFields c2 = Except.ok (dh, c3))
    (hv : BmpVersion.fromDibHeader dh = some BmpVersion.Three ∨
      BmpVersion.fromDibHeader dh = some BmpVersion.Four ∨
      BmpVersion.fromDibHeader dh = some BmpVersion.Five) :
    ∀ s, decodeImage ⟨data, 0⟩ ≠ DecodeResult.err ⟨BmpErrorKind.UnsupportedBmpVersion, s⟩ ∧
      decodeImage ⟨data, 0⟩ ≠ DecodeResult.err ⟨BmpErrorKind.UnsupportedHeader, s⟩ := by
  intro s
  rw [decodeImage_parse_eq data c1 c2 c3 hdr dh hid hhdr hdib]
  have hvne : BmpVersion.fromDibHeader dh ≠ some BmpVersion.Two := by
    rcases hv with hv | hv | hv <;> rw [hv] <;> simp
  cases hc : checkDibHeader dh with
  | error e =>
    have hk := checkDibHeader_goodVersion_err dh e hv hc
    constructor <;> intro hcontra <;>
    · obtain rfl := (DecodeResult.err.inj hcontra)
      simp at hk
  | ok u =>
    cases u
    constructor <;> intro hcontra <;>
    · have := decodeAfterHeaders_err hdr dh c3 _ hvne hcontra
      simp [ioError] at this

/-! ## Claim C4: version classification and the two header-rejection kinds -/

theorem fromDibHeader_classify (dh : BmpDibHeader) :
    (BmpVersion.fromDibHeader dh = some BmpVersion.Two ↔ dh.header_size = 12) ∧
    (BmpVersion.fromDibHeader dh = some BmpVersion.ThreeNT ↔
      dh.header_size = 40 ∧ dh.compress_type = 3) ∧
    (BmpVersion.fromDibHeader dh = some BmpVersion.Three ↔
      dh.header_size = 40 ∧ dh.compress_type ≠ 3) ∧
    (BmpVersion.fromDibHeader dh = some BmpVersion.Four ↔ dh.header_size = 108) ∧
    (BmpVersion.fromDibHeader dh = some BmpVersion.Five ↔ dh.header_size = 124) := by
  unfold BmpVersion.fromDibHeader
  refine ⟨?_, ?_, ?_, ?_, ?_⟩ <;> split_ifs with h1 h2 h3 h4 h5 <;> simp_all

/-- C4: for every input whose signature matches and whose file-header and
DIB-field reads succeed, the version classification of `from_dib_header` is:
12 → v2, 40 with `compress_type = 3` → v3 NT, 40 otherwise → v3, 108 → v4,
124 → v5; decode fails with `UnsupportedBmpVersion` (naming the detected
version) exactly when the classified version is v2 or v3 NT, and with the
distinct kind `UnsupportedHeader` exactly when `header_size` is none of
12, 40, 108, 124; versions 3, 4 and 5 pass this check. -/
theorem c4_version_gate (data : List Nat) (c1 c2 c3 : Cursor)
    (hdr : BmpHeader) (dh : BmpDibHeader)
    (hid : readBmpId ⟨data, 0⟩ = Except.ok c1)
    (hhdr : readBmpHeader c1 = Except.ok (hdr, c2))
    (hdib : readDibFields c2 = Except.ok (dh, c3)) :
    (BmpVersion.fromDibHeader dh = some BmpVersion.Two ↔ dh.header_size = 12) ∧
    (BmpVersion.fromDibHeader dh = some BmpVersion.ThreeNT ↔
      dh.header_size = 40 ∧ dh.compress_type = 3) ∧
    (BmpVersion.fromDibHeader dh = some BmpVersion.Three ↔
      dh.header_size = 40 ∧ dh.compress_type ≠ 3) ∧
    (BmpVersion.fromDibHeader dh = some BmpVersion.Four ↔ dh.header_size = 108) ∧
    (BmpVersion.fromDibHeader dh = some BmpVersion.Five ↔ dh.header_size = 124) ∧
    ((∃ s, decodeImage ⟨data, 0⟩ =
        DecodeResult.err ⟨BmpErrorKind.UnsupportedBmpVersion, s⟩) ↔
      (dh.header_size = 12 ∨ (dh.header_size = 40 ∧ dh.compress_type = 3))) ∧
    (dh.header_size = 12 →
      decodeImage ⟨data, 0⟩ =
        DecodeResult.err ⟨BmpErrorKind.UnsupportedBmpVersion, "BMP Version 2"⟩) ∧
    (dh.header_size = 40 ∧ dh.compress_type = 3 →
      decodeImage ⟨data, 0⟩ =
        DecodeResult.err ⟨BmpErrorKind.UnsupportedBmpVersion, "BMP Version 3 NT"⟩) ∧
    ((∃ s, decodeImage ⟨data, 0⟩ =
        DecodeResult.err ⟨BmpErrorKind.UnsupportedHeader, s⟩) ↔
      ¬(dh.header_size = 12 ∨ dh.header_size = 40 ∨ dh.header_size = 108 ∨
        dh.header_size = 124)) := by
  obtain ⟨hcTwo, hcTNT, hcThree, hcFour, hcFive⟩ := fromDibHeader_classify dh
  have hpe := decodeImage_parse_eq data c1 c2 c3 hdr dh hid hhdr hdib
  refine ⟨hcTwo, hcTNT, hcThree, hcFour, hcFive, ?_, ?_, ?_, ?_⟩
  all_goals by_cases h12 : dh.header_size = 12
  case pos | pos | pos | pos =>
    have hfv : BmpVersion.fromDibHeader dh = some BmpVersion.Two := hcTwo.mpr h12
    have hchk : checkDibHeader dh =
        Except.error ⟨BmpErrorKind.UnsupportedBmpVersion, "BMP Version 2"⟩ := by
      simp only [checkDibHeader, hfv]
      rfl
    have hdec : decodeImage ⟨data, 0⟩ =
        DecodeResult.err ⟨BmpErrorKind.UnsupportedBmpVersion, "BMP Version 2"⟩ := by
      rw [hpe, hchk]
    first
    | (simp [hdec, h12])
    | (intro _; exact hdec)
    | (rintro ⟨h40, _⟩; omega)
  all_goals by_cases h40 : dh.header_size = 40
  case pos | pos | pos | pos =>
    by_cases hc3 : dh.compress_type = 3
    · have hfv : BmpVersion.fromDibHeader dh = some BmpVersion.ThreeNT :=
        hcTNT.mpr ⟨h40, hc3⟩
      have hchk : checkDibHeader dh =
          Except.error ⟨BmpErrorKind.UnsupportedBmpVersion, "BMP Version 3 NT"⟩ := by
        simp only [checkDibHeader, hfv]
        rfl
      have hdec : decodeImage ⟨data, 0⟩ =
          DecodeResult.err ⟨BmpErrorKind.UnsupportedBmpVersion, "BMP Version 3 NT"⟩ := by
        rw [hpe, hchk]
      first
      | (simp [hdec, h12, h40, hc3])
      | (intro _; omega)
      | (rintro ⟨_, _⟩; exact hdec)
    · have hfv : BmpVersion.fromDibHeader dh = some BmpVersion.Three :=
        hcThree.mpr ⟨h40, hc3⟩
      have hne := decode_goodVersion_kinds data c1 c2 c3 hdr dh hid hhdr hdib (Or.inl hfv)
      first
      | (constructor
         · rintro ⟨s, hs⟩
           exact absurd hs (hne s).1
         · rintro (h | ⟨_, hc⟩)
           · omega
           · exact absurd hc hc3)
      | (intro h; omega)
      | (rintro ⟨_, hc⟩; exact absurd hc hc3)
      | (constructor
         · rintro ⟨s, hs⟩
           exact absurd hs (hne s).2
         · intro hcontra
           exact absurd (Or.inr (Or.inl h40)) hcontra)
  all_goals by_cases h108 : dh.header_size = 108
  case pos | pos | pos | pos =>
    have hfv : BmpVersion.fromDibHeader dh = some BmpVersion.Four := hcFour.mpr h108
    have hne := decode_goodVersion_kinds data c1 c2 c3 hdr dh hid hhdr hdib
      (Or.inr (Or.inl hfv))
    first
    | (constructor
       · rintro ⟨s, hs⟩
         exact absurd hs (hne s).1
       · rintro (h | ⟨h, _⟩) <;> omega)
    | (intro h; omega)
    | (rintro ⟨h, _⟩; omega)
    | (constructor
       · rintro ⟨s, hs⟩
         exact absurd hs (hne s).2
       · intro hcontra
         exact absurd (Or.inr (Or.inr (Or.inl h108))) hcontra)
  all_goals by_cases h124 : dh.header_size = 124
  case pos | pos | pos | pos =>
    have hfv : BmpVersion.fromDibHeader dh = some BmpVersion.Five := hcFive.mpr h124
    have hne := decode_goodVersion_kinds data c1 c2 c3 hdr dh hid hhdr hdib
      (Or.inr (Or.inr hfv))
    first
    | (constructor
       · rintro ⟨s, hs⟩
         exact absurd hs (hne s).1
       · rintro (h | ⟨h, _⟩) <;> omega)
    | (intro h; omega)
    | (rintro ⟨h, _⟩; omega)
    | (constructor
       · rintro ⟨s, hs⟩
         exact absurd hs (hne s).2
       · intro hcontra
         exact absurd (Or.inr (Or.inr (Or.inr h124))) hcontra)
  all_goals
    have hfv : BmpVersion.fromDibHeader dh = none := by
      unfold BmpVersion.fromDibHeader
      simp [h12, h40, h108, h124]
    have hchk : checkDibHeader dh =
        Except.error ⟨BmpErrorKind.UnsupportedHeader, unsupportedHeaderDetails dh⟩ := by
      simp only [checkDibHeader, hfv]
    have hdec : decodeImage ⟨data, 0⟩ =
        DecodeResult.err ⟨BmpErrorKind.UnsupportedHeader, unsupportedHeaderDetails dh⟩ := by
      rw [hpe, hchk]
    first
    | (simp [hdec, h12, h40, h108, h124])
    | (intro h; omega)
    | (rintro ⟨h, _⟩; omega)

/-- Witness for `c4_version_gate`: a concrete stream whose DIB header declares
`header_size = 12` decodes to the `UnsupportedBmpVersion` error naming
BMP version 2. -/
theorem c4_version_gate_witness :
    decodeImage ⟨v2HeaderBytes, 0⟩ =
      DecodeResult.err ⟨BmpErrorKind.UnsupportedBmpVersion, "BMP Version 2"⟩ :=
  (c4_version_gate v2HeaderBytes ⟨v2HeaderBytes, 2⟩ ⟨v2HeaderBytes, 14⟩
    ⟨v2HeaderBytes, 54⟩ ⟨54, 0, 0, 54⟩ ⟨12, 1, 1, 1, 1, 0, 0, 0, 0, 0, 0⟩
    (by rfl) (by rfl) (by rfl)).2.2.2.2.2.2.1 rfl

/-! ## Claim C5: compression-type resolution and rejection -/

/-- C5: `from_u32` maps 0 to uncompressed, 1 to RLE-8, 2 to RLE-4, 3 to
bitfields and every other value to uncompressed; for every DIB header that
passes the version and bits-per-pixel checks, decode fails with
`UnsupportedCompressionType` (naming the kind) iff `compress_type ∈ {1,2,3}`,
so any other value (e.g. 5) passes the compression check as uncompressed —
independently of the v3-NT rejection, as the hypothesis admits v4/v5 headers
with any `compress_type`. -/
theorem c5_compression_gate (data : List Nat) (c1 c2 c3 : Cursor)
    (hdr : BmpHeader) (dh : BmpDibHeader)
    (hid : readBmpId ⟨data, 0⟩ = Except.ok c1)
    (hhdr : readBmpHeader c1 = Except.ok (hdr, c2))
    (hdib : readDibFields c2 = Except.ok (dh, c3))
    (hv : BmpVersion.fromDibHeader dh = some BmpVersion.Three ∨
      BmpVersion.fromDibHeader dh = some BmpVersion.Four ∨
      BmpVersion.fromDibHeader dh = some BmpVersion.Five)
    (hbpp : dh.bits_per_pixel = 1 ∨ dh.bits_per_pixel = 4 ∨ dh.bits_per_pixel = 8 ∨
      dh.bits_per_pixel = 24) :
    (CompressionType.fromU32 0 = CompressionType.Uncompressed ∧
      CompressionType.fromU32 1 = CompressionType.Rle8bit ∧
      CompressionType.fromU32 2 = CompressionType.Rle4bit ∧
      CompressionType.fromU32 3 = CompressionType.BitfieldsEncoding ∧
      ∀ v, v ≠ 1 → v ≠ 2 → v ≠ 3 →
        CompressionType.fromU32 v = CompressionType.Uncompressed) ∧
    ((∃ s, decodeImage ⟨data, 0⟩ =
        DecodeResult.err ⟨BmpErrorKind.UnsupportedCompressionType, s⟩) ↔
      (dh.compress_type = 1 ∨ dh.compress_type = 2 ∨ dh.compress_type = 3)) ∧
    (dh.compress_type = 1 → decodeImage ⟨data, 0⟩ =
      DecodeResult.err ⟨BmpErrorKind.UnsupportedCompressionType, "RLE 8-bit"⟩) ∧
    (dh.compress_type = 2 → decodeImage ⟨data, 0⟩ =
      DecodeResult.err ⟨BmpErrorKind.UnsupportedCompressionType, "RLE 4-bit"⟩) ∧
    (dh.compress_type = 3 → decodeImage ⟨data, 0⟩ =
      DecodeResult.err ⟨BmpErrorKind.UnsupportedCompressionType, "Bitfields Encoding"⟩) ∧
    (¬(dh.compress_type = 1 ∨ dh.compress_type = 2 ∨ dh.compress_type = 3) →
      checkDibHeader dh = Except.ok ()) := by
  have hpe := decodeImage_parse_eq data c1 c2 c3 hdr dh hid hhdr hdib
  have hred : checkDibHeader dh =
      (match CompressionType.fromU32 dh.compress_type with
      | CompressionType.Uncompressed => Except.ok ()
      | other => Except.error ⟨BmpErrorKind.UnsupportedCompressionType, other.asRefStr⟩) := by
    rcases hv with hv | hv | hv <;> simp only [checkDibHeader, hv] <;> rw [if_pos hbpp]
  have hmap : CompressionType.fromU32 0 = CompressionType.Uncompressed ∧
      CompressionType.fromU32 1 = CompressionType.Rle8bit ∧
      CompressionType.fromU32 2 = CompressionType.Rle4bit ∧
      CompressionType.fromU32 3 = CompressionType.BitfieldsEncoding ∧
      ∀ v, v ≠ 1 → v ≠ 2 → v ≠ 3 →
        CompressionType.fromU32 v = CompressionType.Uncompressed := by
    refine ⟨rfl, rfl, rfl, rfl, ?_⟩
    intro v h1 h2 h3
    simp [CompressionType.fromU32, h1, h2, h3]
  by_cases hc1 : dh.compress_type = 1
  · have hchk : checkDibHeader dh =
        Except.error ⟨BmpErrorKind.UnsupportedCompressionType, "RLE 8-bit"⟩ := by
      rw [hred, hc1]
      rfl
    have hdec : decodeImage ⟨data, 0⟩ =
        DecodeResult.err ⟨BmpErrorKind.UnsupportedCompressionType, "RLE 8-bit"⟩ := by
      rw [hpe, hchk]
    exact ⟨hmap, by simp [hdec, hc1], fun _ => hdec, fun h => by omega, fun h => by omega,
      fun h => absurd (Or.inl hc1) h⟩
  · by_cases hc2 : dh.compress_type = 2
    · have hchk : checkDibHeader dh =
          Except.error ⟨BmpErrorKind.UnsupportedCompressionType, "RLE 4-bit"⟩ := by
        rw [hred, hc2]
        rfl
      have hdec : decodeImage ⟨data, 0⟩ =
          DecodeResult.err ⟨BmpErrorKind.UnsupportedCompressionType, "RLE 4-bit"⟩ := by
        rw [hpe, hchk]
      exact ⟨hmap, by simp [hdec, hc2], fun h => by omega, fun _ => hdec, fun h => by omega,
        fun h => absurd (Or.inr (Or.inl hc2)) h⟩
    · by_cases hc3 : dh.compress_type = 3
      · have hchk : checkDibHeader dh =
            Except.error ⟨BmpErrorKind.UnsupportedCompressionType, "Bitfields Encoding"⟩ := by
          rw [hred, hc3]
          rfl
        have hdec : decodeImage ⟨data, 0⟩ =
            DecodeResult.err ⟨BmpErrorKind.UnsupportedCompressionType, "Bitfields Encoding"⟩ := by
          rw [hpe, hchk]
        exact ⟨hmap, by simp [hdec, hc3], fun h => by omega, fun h => by omega, fun _ => hdec,
          fun h => absurd (Or.inr (Or.inr hc3)) h⟩
      · have hchk : checkDibHeader dh = Except.ok () := by
          rw [hred, hmap.2.2.2.2 dh.compress_type hc1 hc2 hc3]
        have hvne : BmpVersion.fromDibHeader dh ≠ some BmpVersion.Two := by
          rcases hv with hv | hv | hv <;> rw [hv] <;> simp
        have hne : ∀ s, decodeImage ⟨data, 0⟩ ≠
            DecodeResult.err ⟨BmpErrorKind.UnsupportedCompressionType, s⟩ := by
          intro s hcontra
          rw [hpe, hchk] at hcontra
          have := decodeAfterHeaders_err hdr dh c3 _ hvne hcontra
          simp [ioError] at this
        refine ⟨hmap, ?_, fun h => by omega, fun h => by omega, fun h => by omega,
          fun _ => hchk⟩
        constructor
        · rintro ⟨s, hs⟩
          exact absurd hs (hne s)
        · rintro (h | h | h) <;> omega

/-- Witness for `c5_compression_gate`: a concrete v4 (108-byte DIB) stream
declaring RLE-8 compression decodes to the `UnsupportedCompressionType`
error naming RLE 8-bit. -/
theorem c5_compression_gate_witness :
    decodeImage ⟨v4Rle8Bytes, 0⟩ =
      DecodeResult.err ⟨BmpErrorKind.UnsupportedCompressionType, "RLE 8-bit"⟩ :=
  (c5_compression_gate v4Rle8Bytes ⟨v4Rle8Bytes, 2⟩ ⟨v4Rle8Bytes, 14⟩
    ⟨v4Rle8Bytes, 54⟩ ⟨54, 0, 0, 54⟩ ⟨108, 1, 1, 1, 24, 1, 0, 0, 0, 0, 0⟩
    (by rfl) (by rfl) (by rfl) (by decide) (by decide)).2.2.1 rfl

/-! ## Claim C6: the color-palette read -/

theorem checkDibHeader_ok_inv (dh : BmpDibHeader) (h : checkDibHeader dh = Except.ok ()) :
    (BmpVersion.fromDibHeader dh = some BmpVersion.Three ∨
      BmpVersion.fromDibHeader dh = some BmpVersion.Four ∨
      BmpVersion.fromDibHeader dh = some BmpVersion.Five) ∧
    (dh.bits_per_pixel = 1 ∨ dh.bits_per_pixel = 4 ∨ dh.bits_per_pixel = 8 ∨
      dh.bits_per_pixel = 24) ∧
    CompressionType.fromU32 dh.compress_type = CompressionType.Uncompressed := by
  cases hv : BmpVersion.fromDibHeader dh with
  | none => simp [checkDibHeader, hv] at h
  | some v =>
    cases v with
    | Two => simp [checkDibHeader, hv] at h
    | ThreeNT => simp [checkDibHeader, hv] at h
    | Three =>
      simp only [checkDibHeader, hv] at h
      by_cases hbpp : dh.bits_per_pixel = 1 ∨ dh.bits_per_pixel = 4 ∨
          dh.bits_per_pixel = 8 ∨ dh.bits_per_pixel = 24
      · rw [if_pos hbpp] at h
        cases hct : CompressionType.fromU32 dh.compress_type with
        | Uncompressed => exact ⟨Or.inl rfl, hbpp, rfl⟩
        | Rle8bit => simp [hct] at h
        | Rle4bit => simp [hct] at h
        | BitfieldsEncoding => simp [hct] at h
      · rw [if_neg hbpp] at h
        exact Except.noConfusion h
    | Four =>
      simp only [checkDibHeader, hv] at h
      by_cases hbpp : dh.bits_per_pixel = 1 ∨ dh.bits_per_pixel = 4 ∨
          dh.bits_per_pixel = 8 ∨ dh.bits_per_pixel = 24
      · rw [if_pos hbpp] at h
        cases hct : CompressionType.fromU32 dh.compress_type with
        | Uncompressed => exact ⟨Or.inr (Or.inl rfl), hbpp, rfl⟩
        | Rle8bit => simp [hct] at h
        | Rle4bit => simp [hct] at h
        | BitfieldsEncoding => simp [hct] at h
      · rw [if_neg hbpp] at h
        exact Except.noConfusion h
    | Five =>
      simp only [checkDibHeader, hv] at h
      by_cases hbpp : dh.bits_per_pixel = 1 ∨ dh.bits_per_pixel = 4 ∨
          dh.bits_per_pixel = 8 ∨ dh.bits_per_pixel = 24
      · rw [if_pos hbpp] at h
        cases hct : CompressionType.fromU32 dh.compress_type with
        | Uncompressed => exact ⟨Or.inr (Or.inr rfl), hbpp, rfl⟩
        | Rle8bit => simp [hct] at h
        | Rle4bit => simp [hct] at h
        | BitfieldsEncoding => simp [hct] at h
      · rw [if_neg hbpp] at h
        exact Except.noConfusion h

theorem readPaletteEntries_parse (d : List Nat) :
    ∀ (n q : Nat), q + 4 * n ≤ d.length →
      readPaletteEntries ⟨d, q⟩ n =
        Except.ok (((List.range n).map fun i =>
          (⟨d.getD (q + 4 * i + 2) 0, d.getD (q + 4 * i + 1) 0,
            d.getD (q + 4 * i) 0⟩ : Pixel)), ⟨d, q + 4 * n⟩) := by
  intro n
  induction n with
  | zero =>
    intro q hq
    simp [readPaletteEntries]
  | succ n ih =>
    intro q hq
    have hread : Cursor.readExact ⟨d, q⟩ 4 =
        Except.ok ((d.drop q).take 4, ⟨d, q + 4⟩) := by
      simp only [Cursor.readExact]
      rw [if_pos]
      simp only [List.length_take, List.length_drop]
      omega
    have hgd : ∀ j, j < 4 → ((d.drop q).take 4).getD j 0 = d.getD (q + j) 0 := by
      intro j hj
      rw [List.getD_eq_getElem?_getD, List.getD_eq_getElem?_getD,
        List.getElem?_take_of_lt hj, List.getElem?_drop]
    simp only [readPaletteEntries, hread, ih (q + 4) (by omega)]
    rw [List.range_succ_eq_map, List.map_cons, List.map_map]
    simp only [Except.ok.injEq, Prod.mk.injEq, Cursor.mk.injEq, List.cons.injEq, true_and]
    refine ⟨⟨?_, ?_⟩, ?_⟩
    · rw [hgd 2 (by omega), hgd 1 (by omega), hgd 0 (by omega)]
    · apply List.map_congr_left
      intro i _
      simp only [Function.comp_def]
      have hb : q + 4 + 4 * i = q + 4 * (i + 1) := by omega
      rw [hb]
    · omega

/-- C6: for every DIB header that passes validation and an input long enough
to hold the palette: a palette is read exactly when `bits_per_pixel ∈ {1,4,8}`
or `num_colors ≠ 0` (whatever the depth); the number of entries is
`num_colors` when non-zero, else `1 <<< bits_per_pixel`; reading seeks to file
offset `14 + header_size` and consumes one 4-byte `(blue, green, red,
reserved)` record per entry, mapped to `Pixel` with red at byte offset 2,
green at 1, blue at 0, and the reserved byte discarded. -/
theorem c6_palette_read (data : List Nat) (pos : Nat) (dh : BmpDibHeader)
    (hcheck : checkDibHeader dh = Except.ok ())
    (hlen : 14 + dh.header_size +
      4 * (if dh.num_colors ≠ 0 then dh.num_colors else 2 ^ dh.bits_per_pixel) ≤
      data.length) :
    (¬(dh.bits_per_pixel = 1 ∨ dh.bits_per_pixel = 4 ∨ dh.bits_per_pixel = 8) ∧
        dh.num_colors = 0 →
      readColorPalette ⟨data, pos⟩ dh = Except.ok (none, ⟨data, pos⟩)) ∧
    ((dh.bits_per_pixel = 1 ∨ dh.bits_per_pixel = 4 ∨ dh.bits_per_pixel = 8) ∨
        dh.num_colors ≠ 0 →
      readColorPalette ⟨data, pos⟩ dh =
        Except.ok (some ((List.range
            (if dh.num_colors ≠ 0 then dh.num_colors else 2 ^ dh.bits_per_pixel)).map
          fun i =>
            (⟨data.getD (14 + dh.header_size + 4 * i + 2) 0,
              data.getD (14 + dh.header_size + 4 * i + 1) 0,
              data.getD (14 + dh.header_size + 4 * i) 0⟩ : Pixel)),
          ⟨data, 14 + dh.header_size +
            4 * (if dh.num_colors ≠ 0 then dh.num_colors else
              2 ^ dh.bits_per_pixel)⟩)) := by
  obtain ⟨hv3, _, _⟩ := checkDibHeader_ok_inv dh hcheck
  constructor
  · rintro ⟨hnbpp, hnc⟩
    have hnone : paletteNumEntries dh = none := by
      unfold paletteNumEntries
      rw [if_neg (by simp [hnc]), if_neg hnbpp]
    unfold readColorPalette
    rw [hnone]
  · intro hcond
    have hsome : paletteNumEntries dh =
        some (if dh.num_colors ≠ 0 then dh.num_colors else 2 ^ dh.bits_per_pixel) := by
      unfold paletteNumEntries
      by_cases hnc : dh.num_colors ≠ 0
      · rw [if_pos hnc, if_pos hnc]
      · rw [if_neg hnc, if_neg hnc,
          if_pos (by rcases hcond with h | h; exact h; exact absurd h hnc)]
    have hentries := readPaletteEntries_parse data
      (if dh.num_colors ≠ 0 then dh.num_colors else 2 ^ dh.bits_per_pixel)
      (14 + dh.header_size) (by omega)
    simp only [readColorPalette, hsome, Cursor.seekTo]
    rcases hv3 with hv | hv | hv <;> simp only [hv] <;> rw [hentries]

/-- Witness for `c6_palette_read`: an 8-bpp header with `num_colors = 2` over
the 62-byte stream `oneColorIndexedBytes` reads exactly 2 entries at offset
54, mapping `(B,G,R,reserved)` records to pixels. -/
theorem c6_palette_read_witness :
    readColorPalette ⟨oneColorIndexedBytes, 54⟩ ⟨40, 1, 1, 1, 8, 0, 0, 0, 0, 2, 0⟩ =
      Except.ok (some [⟨30, 20, 10⟩, ⟨0, 0, 128⟩], ⟨oneColorIndexedBytes, 62⟩) :=
  ((c6_palette_read oneColorIndexedBytes 54 ⟨40, 1, 1, 1, 8, 0, 0, 0, 0, 2, 0⟩
    (by rfl) (by decide)).2 (Or.inr (by decide))).trans (by rfl)

/-! ## Claim C7: wrong magic numbers -/

/-- C7: every input of at least two bytes whose first two bytes are not
`"BM"` (`[66, 77]`) makes decode fail with `WrongMagicNumbers`, the details
string carrying the two observed bytes, whatever the remaining bytes are and
before any further parsing step runs. -/
theorem c7_wrong_magic (b0 b1 : Nat) (rest : List Nat)
    (hne : ¬(b0 = 66 ∧ b1 = 77)) :
    decodeImage ⟨b0 :: b1 :: rest, 0⟩ =
      DecodeResult.err ⟨BmpErrorKind.WrongMagicNumbers, wrongMagicDetails b0 b1⟩ := by
  have hread : Cursor.readExact ⟨b0 :: b1 :: rest, 0⟩ 2 =
      Except.ok ([b0, b1], ⟨b0 :: b1 :: rest, 2⟩) := by
    simp [Cursor.readExact]
  have hid : readBmpId ⟨b0 :: b1 :: rest, 0⟩ =
      Except.error ⟨BmpErrorKind.WrongMagicNumbers, wrongMagicDetails b0 b1⟩ := by
    simp only [readBmpId, hread]
    rw [if_neg (by simpa using hne)]
    rfl
  simp only [decodeImage, hid]

/-- Witness for `c7_wrong_magic` at the two bytes `[0, 1]`. -/
theorem c7_wrong_magic_witness :
    decodeImage ⟨[0, 1], 0⟩ =
      DecodeResult.err ⟨BmpErrorKind.WrongMagicNumbers, wrongMagicDetails 0 1⟩ :=
  c7_wrong_magic 0 1 [] (by decide)

/-! ## Claim C8: decoded dimensions and the fresh 24-bpp DIB header -/

/-- C8: every successful decode yields an image whose width and height are the
absolute values of the DIB header's signed width and height fields, and whose
stored DIB header is the fresh 24-bpp record `BmpDibHeader::new` built from
those dimensions alone: `header_size` 40, 1 plane, 24 bpp, `compress_type` 0,
zero palette counts, `hres = vres = 1000` — the source's original depth and
other DIB fields are not retained. -/
theorem c8_dimensions_fresh_dib (data : List Nat) (c1 c2 c3 : Cursor)
    (hdr : BmpHeader) (dh : BmpDibHeader) (img : Image)
    (hid : readBmpId ⟨data, 0⟩ = Except.ok c1)
    (hhdr : readBmpHeader c1 = Except.ok (hdr, c2))
    (hdib : readDibFields c2 = Except.ok (dh, c3))
    (hdec : decodeImage ⟨data, 0⟩ = DecodeResult.ok img) :
    img.width = dh.width.natAbs ∧ img.height = dh.height.natAbs ∧
    img.dib_header = BmpDibHeader.new (i32val img.width) (i32val img.height) ∧
    img.dib_header.header_size = 40 ∧ img.dib_header.num_planes = 1 ∧
    img.dib_header.bits_per_pixel = 24 ∧ img.dib_header.compress_type = 0 ∧
    img.dib_header.num_colors = 0 ∧ img.dib_header.num_imp_colors = 0 ∧
    img.dib_header.hres = 1000 ∧ img.dib_header.vres = 1000 := by
  rw [decodeImage_parse_eq data c1 c2 c3 hdr dh hid hhdr hdib] at hdec
  cases hc : checkDibHeader dh with
  | error e =>
    rw [hc] at hdec
    exact DecodeResult.noConfusion hdec
  | ok u =>
    cases u
    rw [hc] at hdec
    simp only [decodeAfterHeaders] at hdec
    cases hp : readColorPalette c3 dh with
    | error e =>
      simp only [hp] at hdec
      exact DecodeResult.noConfusion hdec
    | ok pr =>
      obtain ⟨pal, c4⟩ := pr
      simp only [hp] at hdec
      cases pal with
      | some palette =>
        cases hi : readIndexes c4.data palette dh.width.natAbs dh.height.natAbs
            dh.bits_per_pixel hdr.pixel_offset with
        | none =>
          simp only [hi] at hdec
          exact DecodeResult.noConfusion hdec
        | some dat =>
          simp only [hi] at hdec
          obtain rfl := (DecodeResult.ok.inj hdec).symm
          exact ⟨rfl, rfl, rfl, rfl, rfl, rfl, rfl, rfl, rfl, rfl, rfl⟩
      | none =>
        cases hx : readPixels c4 dh.width.natAbs dh.height.natAbs hdr.pixel_offset
            (dh.width.natAbs % 4) with
        | error e =>
          simp only [hx] at hdec
          exact DecodeResult.noConfusion hdec
        | ok pr2 =>
          obtain ⟨dat, c5⟩ := pr2
          simp only [hx] at hdec
          obtain rfl := (DecodeResult.ok.inj hdec).symm
          exact ⟨rfl, rfl, rfl, rfl, rfl, rfl, rfl, rfl, rfl, rfl, rfl⟩

/-- Witness for `c8_dimensions_fresh_dib` on the 1×1 24-bpp stream
`smallDirectBytes`. -/
theorem c8_dimensions_fresh_dib_witness :
    ∃ img, decodeImage ⟨smallDirectBytes, 0⟩ = DecodeResult.ok img ∧
      img.width = (1 : Int).natAbs ∧ img.height = (1 : Int).natAbs ∧
      img.dib_header = BmpDibHeader.new (i32val img.width) (i32val img.height) ∧
      img.dib_header.header_size = 40 ∧ img.dib_header.bits_per_pixel = 24 := by
  obtain ⟨img, himg⟩ : ∃ img, decodeImage ⟨smallDirectBytes, 0⟩ = DecodeResult.ok img :=
    ⟨_, rfl⟩
  have h := c8_dimensions_fresh_dib smallDirectBytes ⟨smallDirectBytes, 2⟩
    ⟨smallDirectBytes, 14⟩ ⟨smallDirectBytes, 54⟩ ⟨58, 0, 0, 54⟩
    ⟨40, 1, 1, 1, 24, 0, 4, 0, 0, 0, 0⟩ img (by rfl) (by rfl) (by rfl) himg
  exact ⟨img, himg, h.1, h.2.1, h.2.2.1, h.2.2.2.1, h.2.2.2.2.2.1⟩

end Bmp
